import Mathlib

/-!
Measurement state machine of `assets/js/model-viewer.js`.

A shallow embedding of the measurement code of the viewer: the module-level
variables become the fields of `State`, every handler becomes a function on
`State`, and the three.js scene graph becomes the list of children of the scene.

Conventions of the embedding.

* Numbers are the elements of an arbitrary linearly ordered field `R` (exact
  arithmetic: no rounding, no NaN, no infinity).  `Math.sqrt`, `Math.acos` and
  `Math.PI` are supplied by a `Host`.
* The two shoelace loops (`calculatePolygonArea` and the centroid loop of the
  polygon-closing branch) are also given in the arithmetic of the source,
  binary64: `calculatePolygonArea64`, `centroidSums64` and `centroidPoint64`
  perform the operations of the source in the order of the source and round the
  result of every operation to the nearest binary64 number, ties to even
  (`round64`).  The exponent range is not bounded: overflow, underflow,
  subnormal numbers, NaN and the infinities are not modelled.  Every statement
  that equates the result of a loop with a closed form, or with the result on
  another list, is made about these functions.
* A JavaScript object is a record carrying the identifier it received when it
  was constructed (`State.nextId` counts the constructions), so two objects built
  by two `new` expressions differ even when their contents agree.
* `undefined` and `null` are both `none`; the source only tests them for
  truthiness.
* The ray cast of a pointer event is an input of the event: `some p` when the
  first intersection is `p`, `none` when the ray hits nothing.
* A label carries the number it shows and the suffix of its text; the rounding
  of `toFixed(1)` is not modelled.
* Division is the total division of the field.  Where JavaScript would divide by
  zero (and produce NaN or an infinity), the theorems state that the divisor is
  zero and say nothing about the quotient.
-/

namespace ModelViewer

/-! ## Vectors and host arithmetic -/

/-- A `THREE.Vector3`. -/
structure Vec3 (R : Type) where
  x : R
  y : R
  z : R
deriving DecidableEq, Repr

/-- The numeric primitives of the JavaScript host: `Math.sqrt`, `Math.acos`, `Math.PI`. -/
structure Host (R : Type) where
  sqrt : R → R
  acos : R → R
  pi : R

section Geometry

variable {R : Type} [LinearOrderedField R]

/-- The three.js call `new THREE.Vector3().addVectors(a, b)`. -/
def Vec3.addVectors (a b : Vec3 R) : Vec3 R := ⟨a.x + b.x, a.y + b.y, a.z + b.z⟩

/-- The three.js call `new THREE.Vector3().subVectors(a, b)`. -/
def Vec3.subVectors (a b : Vec3 R) : Vec3 R := ⟨a.x - b.x, a.y - b.y, a.z - b.z⟩

/-- The three.js call `v.multiplyScalar(k)`. -/
def Vec3.multiplyScalar (v : Vec3 R) (k : R) : Vec3 R := ⟨v.x * k, v.y * k, v.z * k⟩

/-- Inner product of two vectors. -/
def Vec3.dot (a b : Vec3 R) : R := a.x * b.x + a.y * b.y + a.z * b.z

/-- Squared Euclidean length. -/
def Vec3.lengthSq (a : Vec3 R) : R := a.dot a

/-- Squared Euclidean distance between two points. -/
def Vec3.distanceToSquared (a b : Vec3 R) : R := (a.subVectors b).lengthSq

/-- Modelled from the spec: `THREE.Vector3.distanceTo` belongs to three.js and is not
under src/; the spec describes it as the "Euclidean norm of (b − a)", that is the
host square root of the squared distance. -/
def Vec3.distanceTo (H : Host R) (a b : Vec3 R) : R := H.sqrt (a.distanceToSquared b)

/-- Modelled from the spec: `THREE.Vector3.angleTo` belongs to three.js and is not under
src/; the spec describes it as the "arccos of normalized dot product" of the two
vectors (radians). -/
def Vec3.angleTo (H : Host R) (a b : Vec3 R) : R :=
  H.acos (a.dot b / (H.sqrt a.lengthSq * H.sqrt b.lengthSq))

/-- Array indexing `points[i]`.  Every call site of the source guards the index; the
default stands for `undefined` and is never read on a guarded path. -/
def nth (points : List (Vec3 R)) (i : Nat) : Vec3 R := points.getD i ⟨0, 0, 0⟩

/-- The term `points[i].x * points[j].z - points[j].x * points[i].z` with
`j = (i + 1) % points.length`, used by both shoelace loops. -/
def crossTerm (points : List (Vec3 R)) (i : Nat) : R :=
  (nth points i).x * (nth points ((i + 1) % points.length)).z
    - (nth points ((i + 1) % points.length)).x * (nth points i).z

/-- Source function `calculatePolygonArea(points)`: the loop over `i = 0 .. points.length - 1`
adds one cross term per index to `area`; the result is `Math.abs(area) / 2`. -/
def calculatePolygonArea (points : List (Vec3 R)) : R :=
  |(List.range points.length).foldl (fun area i => area + crossTerm points i) 0| / 2

/-- The accumulators `(signedArea, centroidX, centroidZ)` at the end of the centroid
loop of the polygon-closing branch of `onModelClick`. -/
def centroidSums (points : List (Vec3 R)) : R × R × R :=
  (List.range points.length).foldl
    (fun acc i =>
      let j := (i + 1) % points.length
      let cross := crossTerm points i
      (acc.1 + cross,
       acc.2.1 + ((nth points i).x + (nth points j).x) * cross,
       acc.2.2 + ((nth points i).z + (nth points j).z) * cross))
    (0, 0, 0)

/-- The `centroidPoint` of the polygon-closing branch: `signedArea /= 2`, both sums
divided by `6 * signedArea`, and the mean of the `y` coordinates. -/
def centroidPoint (points : List (Vec3 R)) : Vec3 R :=
  let sums := centroidSums points
  let signedArea := sums.1 / 2
  let centroidX := sums.2.1 / (6 * signedArea)
  let centroidZ := sums.2.2 / (6 * signedArea)
  let avgY := points.foldl (fun sum p => sum + p.y) 0 / (points.length : R)
  ⟨centroidX, avgY, centroidZ⟩

end Geometry

/-! ## Scene objects and viewer state -/

/-- Values of `currentMode`. -/
inductive CurrentMode where
  | orbit | pan | zoom | measure
deriving DecidableEq, Repr

/-- Values of `measurementMode`. -/
inductive MeasurementMode where
  | none | distance | angle | area
deriving DecidableEq, Repr

/-- Values of `controls.mouseButtons.LEFT`. -/
inductive MouseAction where
  | rotate | pan | dolly
deriving DecidableEq, Repr

/-- The sphere built by `createPointMarker`. -/
structure Marker (R : Type) where
  id : Nat
  position : Vec3 R
deriving DecidableEq, Repr

/-- A `THREE.Line` built from a list of points (all lines share the colour 0xffff00). -/
structure Line (R : Type) where
  id : Nat
  points : List (Vec3 R)
deriving DecidableEq, Repr

/-- The suffix of a label text: `" cm"`, `"°"` or `" cm²"`. -/
inductive Suffix where
  | cm | degrees | cm2
deriving DecidableEq, Repr

/-- The sprite built by `createTextSprite`, with the position copied into it. -/
structure Label (R : Type) where
  id : Nat
  value : R
  suffix : Suffix
  position : Vec3 R
deriving DecidableEq, Repr

/-- A child of the scene. -/
inductive SceneObj (R : Type) where
  | light (id : Nat)
  | model (id : Nat)
  | marker (m : Marker R)
  | line (l : Line R)
  | sprite (t : Label R)
deriving DecidableEq, Repr

/-- The identifier of a scene object. -/
def SceneObj.id {R : Type} : SceneObj R → Nat
  | .light i => i
  | .model i => i
  | .marker m => m.id
  | .line l => l.id
  | .sprite t => t.id

/-- The module-level variables of the viewer, the children of the scene, the state
of the measure menu and the counter of constructed objects. -/
structure State (R : Type) where
  scene : List (SceneObj R)
  nextId : Nat
  leftButton : MouseAction
  menuShown : Bool
  currentMode : CurrentMode
  measurementMode : MeasurementMode
  selectedPoints : List (Vec3 R)
  measurementLine : Option (Line R)
  measurementText : Option (Label R)
  dynamicLine : Option (Line R)
  pointMarkers : List (Marker R)
  polygonPoints : List (Vec3 R)
  polygonLines : List (Line R)
  firstPointMarker : Option (Marker R)
deriving DecidableEq, Repr

/-- The state once `init` has run and the model has loaded: the two lights and the model
are the children of the scene, every module-level variable has its initial value. -/
def initialState (R : Type) : State R :=
  { scene := [.light 0, .light 1, .model 2]
    nextId := 3
    leftButton := .rotate
    menuShown := false
    currentMode := .orbit
    measurementMode := .none
    selectedPoints := []
    measurementLine := none
    measurementText := none
    dynamicLine := none
    pointMarkers := []
    polygonPoints := []
    polygonLines := []
    firstPointMarker := none }

/-! ## Handlers -/

section Handlers

variable {R : Type} [LinearOrderedField R]

/-- The statement `if (o) scene.remove(o)` on the children of the scene. -/
def removeIf (scene : List (SceneObj R)) (o : Option (SceneObj R)) : List (SceneObj R) :=
  match o with
  | some obj => scene.erase obj
  | none => scene

/-- The statement `objects.forEach(o => scene.remove(o))` on the children of the scene. -/
def removeEach (scene : List (SceneObj R)) (objects : List (SceneObj R)) : List (SceneObj R) :=
  objects.foldl (fun children o => children.erase o) scene

/-- Source function `setOrbitMode()`. -/
def setOrbitMode (s : State R) : State R :=
  { s with currentMode := .orbit, measurementMode := .none, leftButton := .rotate }

/-- Source function `setPanMode()`. -/
def setPanMode (s : State R) : State R :=
  { s with currentMode := .pan, measurementMode := .none, leftButton := .pan }

/-- Source function `setZoomMode()`. -/
def setZoomMode (s : State R) : State R :=
  { s with currentMode := .zoom, measurementMode := .none, leftButton := .dolly }

/-- Source function `toggleMeasureMenu()`. -/
def toggleMeasureMenu (s : State R) : State R :=
  { s with menuShown := !s.menuShown }

/-- Source function `clearMeasurement()`: removes the last measurement line and label, the
live line, the polygon edges and the markers from the scene, and empties `polygonLines`
and `pointMarkers`. -/
def clearMeasurement (s : State R) : State R :=
  let scene := removeIf s.scene (s.measurementLine.map SceneObj.line)
  let scene := removeIf scene (s.measurementText.map SceneObj.sprite)
  let scene := removeIf scene (s.dynamicLine.map SceneObj.line)
  let scene := removeEach scene (s.polygonLines.map SceneObj.line)
  let scene := removeEach scene (s.pointMarkers.map SceneObj.marker)
  { s with scene := scene, polygonLines := [], pointMarkers := [] }

/-- Source function `setDistanceMeasure()`. -/
def setDistanceMeasure (s : State R) : State R :=
  let s := { s with measurementMode := .distance, currentMode := .measure, selectedPoints := [] }
  toggleMeasureMenu (clearMeasurement s)

/-- Source function `setAngleMeasure()`. -/
def setAngleMeasure (s : State R) : State R :=
  let s := { s with measurementMode := .angle, currentMode := .measure, selectedPoints := [] }
  toggleMeasureMenu (clearMeasurement s)

/-- Source function `setAreaMeasure()`. -/
def setAreaMeasure (s : State R) : State R :=
  let s := { s with measurementMode := .area, currentMode := .measure, polygonPoints := [],
                    polygonLines := [], firstPointMarker := none }
  toggleMeasureMenu (clearMeasurement s)

/-- Source function `updateAreaPolygon(currentPoint)`. -/
def updateAreaPolygon (H : Host R) (s : State R) (currentPoint : Vec3 R) : State R :=
  let s := { s with scene := removeIf s.scene (s.dynamicLine.map SceneObj.line) }
  if s.polygonPoints.length > 0 then
    let last := nth s.polygonPoints (s.polygonPoints.length - 1)
    let line : Line R := ⟨s.nextId, [last, currentPoint]⟩
    let s := { s with nextId := s.nextId + 1, dynamicLine := some line,
                      scene := s.scene ++ [SceneObj.line line] }
    if s.firstPointMarker.isSome ∧ currentPoint.distanceTo H (nth s.polygonPoints 0) < 1 / 2 then
      let s := { s with scene := removeIf s.scene (s.dynamicLine.map SceneObj.line) }
      let closeLine : Line R := ⟨s.nextId, [last, nth s.polygonPoints 0]⟩
      { s with nextId := s.nextId + 1, dynamicLine := some closeLine,
               scene := s.scene ++ [SceneObj.line closeLine] }
    else s
  else s

/-- Source function `createPointMarker(position)`; it returns the sphere together with the new
state. -/
def createPointMarker (s : State R) (position : Vec3 R) : Marker R × State R :=
  let sphere : Marker R := ⟨s.nextId, position⟩
  (sphere, { s with nextId := s.nextId + 1, scene := s.scene ++ [SceneObj.marker sphere],
                    pointMarkers := s.pointMarkers ++ [sphere] })

/-- Source function `showDistance()`. -/
def showDistance (H : Host R) (s : State R) : State R :=
  let start := nth s.selectedPoints 0
  let «end» := nth s.selectedPoints 1
  let distance := start.distanceTo H «end» * 100
  let line : Line R := ⟨s.nextId, s.selectedPoints⟩
  let s := { s with nextId := s.nextId + 1, measurementLine := some line,
                    scene := s.scene ++ [SceneObj.line line] }
  let midPoint := (start.addVectors «end»).multiplyScalar (1 / 2)
  let textSprite : Label R := ⟨s.nextId, distance, .cm, midPoint⟩
  { s with nextId := s.nextId + 1, measurementText := some textSprite,
           scene := s.scene ++ [SceneObj.sprite textSprite] }

/-- Source function `showAngle()`. -/
def showAngle (H : Host R) (s : State R) : State R :=
  let vertex := nth s.selectedPoints 0
  let point1 := nth s.selectedPoints 1
  let point2 := nth s.selectedPoints 2
  let vector1 := point1.subVectors vertex
  let vector2 := point2.subVectors vertex
  let angle := vector1.angleTo H vector2 * (180 / H.pi)
  let line : Line R := ⟨s.nextId, [vertex, point1, vertex, point2]⟩
  let s := { s with nextId := s.nextId + 1, measurementLine := some line,
                    scene := s.scene ++ [SceneObj.line line] }
  let textSprite : Label R := ⟨s.nextId, angle, .degrees, vertex⟩
  { s with nextId := s.nextId + 1, measurementText := some textSprite,
           scene := s.scene ++ [SceneObj.sprite textSprite], selectedPoints := [] }

/-- The statement `if (dynamicLine) { scene.remove(dynamicLine); dynamicLine = null; }`. -/
def dropDynamicLine (s : State R) : State R :=
  match s.dynamicLine with
  | some d => { s with scene := s.scene.erase (SceneObj.line d), dynamicLine := none }
  | none => s

/-- The test of the area branch of `onModelClick` that decides whether the click closes
the polygon. -/
def closesPolygon (H : Host R) (s : State R) (point : Vec3 R) : Prop :=
  s.polygonPoints.length > 2 ∧ s.firstPointMarker.isSome ∧
    point.distanceTo H (nth s.polygonPoints 0) < 1 / 2

instance (H : Host R) (s : State R) (point : Vec3 R) : Decidable (closesPolygon H s point) := by
  unfold closesPolygon; infer_instance

/-- The polygon-closing branch of `onModelClick`. -/
def closePolygon (s : State R) : State R :=
  let line : Line R := ⟨s.nextId, s.polygonPoints ++ [nth s.polygonPoints 0]⟩
  let s := { s with nextId := s.nextId + 1, scene := s.scene ++ [SceneObj.line line],
                    polygonLines := s.polygonLines ++ [line] }
  let area := calculatePolygonArea s.polygonPoints * 10000
  let textSprite : Label R := ⟨s.nextId, area, .cm2, centroidPoint s.polygonPoints⟩
  let s := { s with nextId := s.nextId + 1, measurementText := some textSprite,
                    scene := s.scene ++ [SceneObj.sprite textSprite] }
  let s := { s with polygonPoints := [] }
  let s := { s with scene := removeIf s.scene (s.dynamicLine.map SceneObj.line) }
  { s with firstPointMarker := none }

/-- The branch of `onModelClick` that adds a vertex to the polygon. -/
def addPolygonPoint (s : State R) (point : Vec3 R) : State R :=
  let (marker, s) := createPointMarker s point
  let s := if s.firstPointMarker.isSome then s else { s with firstPointMarker := some marker }
  let s := { s with polygonPoints := s.polygonPoints ++ [point] }
  if s.polygonPoints.length > 1 then
    let line : Line R := ⟨s.nextId, [nth s.polygonPoints (s.polygonPoints.length - 2), point]⟩
    { s with nextId := s.nextId + 1, scene := s.scene ++ [SceneObj.line line],
             polygonLines := s.polygonLines ++ [line] }
  else s

/-- Source function `onModelClick(event)`; `pick` is the first intersection of the ray cast,
if any. -/
def onModelClick (H : Host R) (s : State R) (pick : Option (Vec3 R)) : State R :=
  if s.measurementMode = .none then s
  else
    match pick with
    | none => s
    | some point =>
      match s.measurementMode with
      | .distance =>
        let s := (createPointMarker s point).2
        let s := { s with selectedPoints := s.selectedPoints ++ [point] }
        if s.selectedPoints.length = 2 then
          let s := showDistance H s
          let s := { s with selectedPoints := [] }
          dropDynamicLine s
        else s
      | .angle =>
        let s := (createPointMarker s point).2
        let s := { s with selectedPoints := s.selectedPoints ++ [point] }
        if s.selectedPoints.length = 3 then
          let s := showAngle H s
          let s := { s with selectedPoints := [] }
          dropDynamicLine s
        else s
      | .area =>
        if closesPolygon H s point then closePolygon s else addPolygonPoint s point
      | .none => s

/-- Source function `updateDynamicLine(currentPoint)`. -/
def updateDynamicLine (s : State R) (currentPoint : Vec3 R) : State R :=
  let s := { s with scene := removeIf s.scene (s.dynamicLine.map SceneObj.line) }
  if s.measurementMode = .distance then
    let line : Line R := ⟨s.nextId, [nth s.selectedPoints 0, currentPoint]⟩
    { s with nextId := s.nextId + 1, dynamicLine := some line, scene := s.scene ++ [SceneObj.line line] }
  else if s.measurementMode = .angle ∧ s.selectedPoints.length = 2 then
    let line : Line R :=
      ⟨s.nextId, [nth s.selectedPoints 0, nth s.selectedPoints 1, nth s.selectedPoints 0,
                  currentPoint]⟩
    { s with nextId := s.nextId + 1, dynamicLine := some line, scene := s.scene ++ [SceneObj.line line] }
  else s

/-- Source function `onMouseMove(event)`; `pick` is the first intersection of the ray cast,
if any. -/
def onMouseMove (H : Host R) (s : State R) (pick : Option (Vec3 R)) : State R :=
  if s.measurementMode = .none ∨
      (s.measurementMode ≠ .area ∧ s.selectedPoints.length = 0) then s
  else
    match pick with
    | none => s
    | some point =>
      if s.measurementMode = .area ∧ s.polygonPoints.length > 0 then
        updateAreaPolygon H s point
      else
        updateDynamicLine s point

/-- Source function `cancelMeasurement()`. -/
def cancelMeasurement (s : State R) : State R :=
  let s := clearMeasurement s
  let s := { s with measurementMode := .none, selectedPoints := [], polygonPoints := [],
                    firstPointMarker := none }
  let s := dropDynamicLine s
  if s.menuShown then { s with menuShown := false } else s

/-! ## Events and reachable states -/

/-- What the page can send to the viewer: the six mode commands, a click and a pointer
move with the result of their ray cast, and the Escape key. -/
inductive Event (R : Type) where
  | setOrbit | setPan | setZoom
  | setDistance | setAngle | setArea
  | click (pick : Option (Vec3 R))
  | move (pick : Option (Vec3 R))
  | cancel

/-- The handler run for an event. -/
def step (H : Host R) (s : State R) : Event R → State R
  | .setOrbit => setOrbitMode s
  | .setPan => setPanMode s
  | .setZoom => setZoomMode s
  | .setDistance => setDistanceMeasure s
  | .setAngle => setAngleMeasure s
  | .setArea => setAreaMeasure s
  | .click pick => onModelClick H s pick
  | .move pick => onMouseMove H s pick
  | .cancel => cancelMeasurement s

/-- The state after a sequence of events. -/
def run (H : Host R) (s : State R) (events : List (Event R)) : State R :=
  events.foldl (step H) s

/-- A state is reachable when some sequence of events leads to it from the initial state. -/
def Reachable (H : Host R) (s : State R) : Prop :=
  ∃ events : List (Event R), run H (initialState R) events = s

end Handlers

/-- A host over the rationals used to exhibit concrete runs: `sqrt` is exact on the squares
of rationals, `pi` is the approximation 355/113, and `acos t` is `pi / 2 - t`, which is
exact at `0` relative to that `pi`. -/
def ratHost : Host ℚ :=
  { sqrt := fun q => (Nat.sqrt q.num.toNat : ℚ) / (Nat.sqrt q.den : ℚ)
    acos := fun t => 355 / 226 - t
    pi := 355 / 113 }

/-! ## Predicates used by the statements -/

section Predicates

variable {R : Type}

/-- The labels among the children of the scene, in order. -/
def labels (scene : List (SceneObj R)) : List (Label R) :=
  scene.filterMap fun o => match o with
    | .sprite t => some t
    | _ => none

/-- The markers among the children of the scene, in order. -/
def markers (scene : List (SceneObj R)) : List (Marker R) :=
  scene.filterMap fun o => match o with
    | .marker m => some m
    | _ => none

/-- The children of the scene are pairwise distinct and were all constructed before the
counter reached `n`. -/
def SceneOK (scene : List (SceneObj R)) (n : Nat) : Prop :=
  scene.Nodup ∧ ∀ o ∈ scene, o.id < n

/-- The invariant of the reachable states: the scene is well formed, `firstPointMarker`
is set exactly when `polygonPoints` is non-empty, and a measurement mode is only active
while `currentMode` is `'measure'`. -/
structure Inv (s : State R) : Prop where
  sceneOK : SceneOK s.scene s.nextId
  firstMarker : s.firstPointMarker.isSome = true ↔ s.polygonPoints ≠ []
  modes : s.measurementMode ≠ .none → s.currentMode = .measure

end Predicates

section DerivedPredicates

variable {R : Type} [LinearOrderedField R]

/-- The projections of the points onto the X–Z plane lie on one line (or coincide): every
triple of points spans a parallelogram of area zero. -/
def CollinearXZ (points : List (Vec3 R)) : Prop :=
  ∀ p ∈ points, ∀ q ∈ points, ∀ r ∈ points,
    (q.x - p.x) * (r.z - p.z) - (r.x - p.x) * (q.z - p.z) = 0

instance (points : List (Vec3 R)) : Decidable (CollinearXZ points) := by
  unfold CollinearXZ; infer_instance

/-- One event of a run that also records the identifiers of the live lines: the objects
constructed while `onMouseMove` runs.  The only constructions `onMouseMove` performs are
the `new THREE.Line` of `updateAreaPolygon` and `updateDynamicLine`, each assigned to
`dynamicLine`; no other handler builds a live line. -/
def stepLive (H : Host R) (sl : State R × List Nat) (e : Event R) : State R × List Nat :=
  (step H sl.1 e,
   match e with
   | .move _ => sl.2 ++ List.range' sl.1.nextId ((step H sl.1 e).nextId - sl.1.nextId)
   | _ => sl.2)

/-- The state after a sequence of events from the initial state, together with the
identifiers of all live lines constructed on the way. -/
def runLive (H : Host R) (events : List (Event R)) : State R × List Nat :=
  events.foldl (stepLive H) (initialState R, [])

/-- Every object of `scene'` was in `scene` or was constructed at or after `n`. -/
def Origin (n : Nat) (scene scene' : List (SceneObj R)) : Prop :=
  ∀ o ∈ scene', o ∈ scene ∨ n ≤ o.id

/-- The invariant of the runs that record the live lines: the scene is well formed, every
recorded identifier is older than the counter, and an object of the scene whose identifier
is recorded is the line referenced by `dynamicLine`. -/
def LiveInv (s : State R) (live : List Nat) : Prop :=
  SceneOK s.scene s.nextId ∧ (∀ id ∈ live, id < s.nextId) ∧
    (∀ o ∈ s.scene, o.id ∈ live → s.dynamicLine.map SceneObj.line = some o)

/-- The lines referenced by `dynamicLine` and `polygonLines` were constructed before the
counter reached its current value. -/
def LineIdsOK (s : State R) : Prop :=
  (∀ d, s.dynamicLine = some d → d.id < s.nextId) ∧ (∀ p ∈ s.polygonLines, p.id < s.nextId)

/-- The line `l` was constructed before the counter reached its current value and is
neither the live line nor one of the polygon lines. -/
def Apart (l : Line R) (s : State R) : Prop :=
  l.id < s.nextId ∧ (∀ d, s.dynamicLine = some d → d.id ≠ l.id) ∧
    (∀ p ∈ s.polygonLines, p.id ≠ l.id)

end DerivedPredicates

/-! ## Binary64 arithmetic of the shoelace loops -/

section Binary64

/-- Rounding of a rational to the nearest integer, ties to the even one. -/
def roundHalfEven (x : ℚ) : ℤ :=
  if x - ⌊x⌋ < 1 / 2 then ⌊x⌋
  else if 1 / 2 < x - ⌊x⌋ then ⌊x⌋ + 1
  else if ⌊x⌋ % 2 = 0 then ⌊x⌋ else ⌊x⌋ + 1

/-- Floor of the base-2 logarithm of a natural number by repeated halving; `fuel` bounds
the number of halvings. -/
def log2Fuel : ℕ → ℕ → ℕ
  | 0, _ => 0
  | fuel + 1, n => if n < 2 then 0 else log2Fuel fuel (n / 2) + 1

/-- Floor of the base-2 logarithm of a positive natural number (0 at 0). -/
def natLog2 (n : ℕ) : ℕ := log2Fuel n n

/-- Floor of the base-2 logarithm of the magnitude of a non-zero rational: the difference
of the logarithms of numerator and denominator, lowered by one when it overshoots. -/
def floorLog2 (q : ℚ) : ℤ :=
  if (2 : ℚ) ^ ((natLog2 q.num.natAbs : ℤ) - natLog2 q.den) ≤ |q| then
    (natLog2 q.num.natAbs : ℤ) - natLog2 q.den
  else (natLog2 q.num.natAbs : ℤ) - natLog2 q.den - 1

/-- The binary64 number nearest to `q`, ties to even: the magnitude of `q` is scaled into
`[2^52, 2^53)`, rounded to an integer (the 53-bit significand) and scaled back.  The
exponent range is not bounded, so overflow, underflow and subnormal numbers are not
modelled. -/
def round64 (q : ℚ) : ℚ :=
  if q = 0 then 0
  else (if q < 0 then -1 else 1) * (roundHalfEven (|q| / 2 ^ (floorLog2 q - 52)) : ℚ)
        * 2 ^ (floorLog2 q - 52)

/-- The JavaScript sum `a + b` of two binary64 numbers. -/
def fadd (a b : ℚ) : ℚ := round64 (a + b)

/-- The JavaScript difference `a - b` of two binary64 numbers. -/
def fsub (a b : ℚ) : ℚ := round64 (a - b)

/-- The JavaScript product `a * b` of two binary64 numbers. -/
def fmul (a b : ℚ) : ℚ := round64 (a * b)

/-- The JavaScript quotient `a / b` of two binary64 numbers, for `b` other than zero (at
`b = 0` the source yields NaN or an infinity, the model zero). -/
def fdiv (a b : ℚ) : ℚ := round64 (a / b)

/-- The term `points[i].x * points[j].z - points[j].x * points[i].z` with
`j = (i + 1) % points.length` in binary64: both products and their difference are rounded. -/
def crossTerm64 (points : List (Vec3 ℚ)) (i : Nat) : ℚ :=
  fsub (fmul (nth points i).x (nth points ((i + 1) % points.length)).z)
    (fmul (nth points ((i + 1) % points.length)).x (nth points i).z)

/-- Source function `calculatePolygonArea(points)` in binary64: `area += ...` rounds after
every addition, in the order of the loop, and `Math.abs(area) / 2` rounds the quotient. -/
def calculatePolygonArea64 (points : List (Vec3 ℚ)) : ℚ :=
  fdiv |(List.range points.length).foldl (fun area i => fadd area (crossTerm64 points i)) 0| 2

/-- The accumulators `(signedArea, centroidX, centroidZ)` at the end of the centroid loop of
the polygon-closing branch of `onModelClick`, in binary64. -/
def centroidSums64 (points : List (Vec3 ℚ)) : ℚ × ℚ × ℚ :=
  (List.range points.length).foldl
    (fun acc i =>
      let j := (i + 1) % points.length
      let cross := crossTerm64 points i
      (fadd acc.1 cross,
       fadd acc.2.1 (fmul (fadd (nth points i).x (nth points j).x) cross),
       fadd acc.2.2 (fmul (fadd (nth points i).z (nth points j).z) cross)))
    (0, 0, 0)

/-- The `centroidPoint` of the polygon-closing branch in binary64: `signedArea /= 2`, both
sums divided by `6 * signedArea`, and `avgY`, the `reduce` sum of the `y` coordinates
divided by the number of points. -/
def centroidPoint64 (points : List (Vec3 ℚ)) : Vec3 ℚ :=
  let sums := centroidSums64 points
  let signedArea := fdiv sums.1 2
  let centroidX := fdiv sums.2.1 (fmul 6 signedArea)
  let centroidZ := fdiv sums.2.2 (fmul 6 signedArea)
  let avgY := fdiv (points.foldl (fun sum p => fadd sum p.y) 0) (points.length : ℚ)
  ⟨centroidX, avgY, centroidZ⟩

/-- The rational `q` is an integer of magnitude at most `b`. -/
def IntBounded (b : ℕ) (q : ℚ) : Prop := q.den = 1 ∧ q.num.natAbs ≤ b

instance (b : ℕ) (q : ℚ) : Decidable (IntBounded b q) := by
  unfold IntBounded; infer_instance

/-- Every point of the list has integer `x` and `z` coordinates of magnitude at most `b`. -/
def PointsBounded (b : ℕ) (points : List (Vec3 ℚ)) : Prop :=
  ∀ p ∈ points, IntBounded b p.x ∧ IntBounded b p.z

instance (b : ℕ) (points : List (Vec3 ℚ)) : Decidable (PointsBounded b points) := by
  unfold PointsBounded; infer_instance

end Binary64

/-! ## The scene under removal and insertion -/

section SceneLemmas

variable {R : Type} [LinearOrderedField R]

theorem mem_removeIf_iff {scene : List (SceneObj R)} (h : scene.Nodup) (o : Option (SceneObj R))
    (x : SceneObj R) : x ∈ removeIf scene o ↔ x ∈ scene ∧ o ≠ some x := by
  cases o with
  | none => simp [removeIf]
  | some obj =>
    simp only [removeIf, h.mem_erase_iff, ne_eq, Option.some.injEq]
    constructor
    · rintro ⟨h1, h2⟩; exact ⟨h2, fun e => h1 e.symm⟩
    · rintro ⟨h1, h2⟩; exact ⟨fun e => h2 e.symm, h1⟩

theorem mem_of_mem_removeIf {scene : List (SceneObj R)} {o : Option (SceneObj R)}
    {x : SceneObj R} (h : x ∈ removeIf scene o) : x ∈ scene := by
  cases o with
  | none => exact h
  | some obj => exact List.mem_of_mem_erase h

theorem mem_removeIf_of_ne {scene : List (SceneObj R)} {o : Option (SceneObj R)}
    {x : SceneObj R} (h : x ∈ scene) (hne : o ≠ some x) : x ∈ removeIf scene o := by
  cases o with
  | none => exact h
  | some obj =>
    have : x ≠ obj := fun e => hne (by rw [e])
    exact (List.mem_erase_of_ne this).2 h

theorem nodup_removeIf {scene : List (SceneObj R)} (h : scene.Nodup) (o : Option (SceneObj R)) :
    (removeIf scene o).Nodup := by
  cases o with
  | none => exact h
  | some obj => exact h.erase obj

theorem nodup_removeEach (objects : List (SceneObj R)) :
    ∀ {scene : List (SceneObj R)}, scene.Nodup → (removeEach scene objects).Nodup := by
  induction objects with
  | nil => intro scene h; exact h
  | cons o os ih => intro scene h; exact ih (h.erase o)

theorem mem_removeEach_iff (objects : List (SceneObj R)) :
    ∀ {scene : List (SceneObj R)}, scene.Nodup →
      ∀ x, x ∈ removeEach scene objects ↔ x ∈ scene ∧ x ∉ objects := by
  induction objects with
  | nil => intro scene _ x; simp [removeEach]
  | cons o os ih =>
    intro scene h x
    have := ih (h.erase o) x
    simp only [removeEach, List.foldl_cons] at this ⊢
    rw [this, h.mem_erase_iff]
    simp only [List.mem_cons, not_or]
    tauto

theorem mem_of_mem_removeEach (objects : List (SceneObj R)) :
    ∀ {scene : List (SceneObj R)} {x : SceneObj R}, x ∈ removeEach scene objects → x ∈ scene := by
  induction objects with
  | nil => intro scene x h; exact h
  | cons o os ih => intro scene x h; exact List.mem_of_mem_erase (ih h)

theorem mem_removeEach_of_not_mem (objects : List (SceneObj R)) :
    ∀ {scene : List (SceneObj R)} {x : SceneObj R}, x ∈ scene → x ∉ objects →
      x ∈ removeEach scene objects := by
  induction objects with
  | nil => intro scene x h _; exact h
  | cons o os ih =>
    intro scene x h hx
    simp only [List.mem_cons, not_or] at hx
    exact ih ((List.mem_erase_of_ne hx.1).2 h) hx.2

theorem SceneOK.removeIf {scene : List (SceneObj R)} {n : Nat} (h : SceneOK scene n)
    (o : Option (SceneObj R)) : SceneOK (removeIf scene o) n :=
  ⟨nodup_removeIf h.1 o, fun x hx => h.2 x (mem_of_mem_removeIf hx)⟩

theorem SceneOK.erase {scene : List (SceneObj R)} {n : Nat} (h : SceneOK scene n)
    (o : SceneObj R) : SceneOK (scene.erase o) n :=
  ⟨h.1.erase o, fun x hx => h.2 x (List.mem_of_mem_erase hx)⟩

theorem SceneOK.removeEach {scene : List (SceneObj R)} {n : Nat} (h : SceneOK scene n)
    (os : List (SceneObj R)) : SceneOK (removeEach scene os) n :=
  ⟨nodup_removeEach os h.1, fun x hx => h.2 x (mem_of_mem_removeEach os hx)⟩

omit [LinearOrderedField R] in
theorem SceneOK.push {scene : List (SceneObj R)} {n : Nat} (h : SceneOK scene n)
    {o : SceneObj R} (ho : o.id = n) : SceneOK (scene ++ [o]) (n + 1) := by
  refine ⟨?_, ?_⟩
  · rw [List.nodup_append]
    refine ⟨h.1, List.nodup_singleton o, ?_⟩
    intro a ha hb
    rw [List.mem_singleton] at hb
    have := h.2 a ha
    rw [hb, ho] at this
    exact Nat.lt_irrefl _ this
  · intro x hx
    rw [List.mem_append, List.mem_singleton] at hx
    rcases hx with hx | hx
    · exact Nat.lt_succ_of_lt (h.2 x hx)
    · rw [hx, ho]; exact Nat.lt_succ_self n

theorem sceneOK_clearMeasurement {s : State R} (h : SceneOK s.scene s.nextId) :
    SceneOK (clearMeasurement s).scene (clearMeasurement s).nextId := by
  unfold clearMeasurement
  exact ((((h.removeIf _).removeIf _).removeIf _).removeEach _).removeEach _

theorem sceneOK_dropDynamicLine {s : State R} (h : SceneOK s.scene s.nextId) :
    SceneOK (dropDynamicLine s).scene (dropDynamicLine s).nextId := by
  unfold dropDynamicLine
  split
  · exact h.erase _
  · exact h

theorem sceneOK_onModelClick (H : Host R) {s : State R} (pick : Option (Vec3 R))
    (h : SceneOK s.scene s.nextId) :
    SceneOK (onModelClick H s pick).scene (onModelClick H s pick).nextId := by
  simp only [onModelClick, closePolygon, addPolygonPoint, showDistance, showAngle,
    createPointMarker]
  repeat' split
  all_goals
    repeat' first
      | exact h
      | apply sceneOK_dropDynamicLine
      | apply SceneOK.removeIf
      | refine SceneOK.push ?_ rfl

theorem sceneOK_onMouseMove (H : Host R) {s : State R} (pick : Option (Vec3 R))
    (h : SceneOK s.scene s.nextId) :
    SceneOK (onMouseMove H s pick).scene (onMouseMove H s pick).nextId := by
  simp only [onMouseMove, updateAreaPolygon, updateDynamicLine]
  repeat' split
  all_goals
    repeat' first
      | exact h
      | apply SceneOK.removeIf
      | refine SceneOK.push ?_ rfl

theorem cancelMeasurement_scene (s : State R) :
    (cancelMeasurement s).scene
      = removeIf (clearMeasurement s).scene (s.dynamicLine.map SceneObj.line) := by
  simp only [cancelMeasurement, dropDynamicLine, clearMeasurement]
  cases s.dynamicLine <;> simp only [removeIf, Option.map] <;> split <;> rfl

theorem cancelMeasurement_nextId (s : State R) : (cancelMeasurement s).nextId = s.nextId := by
  simp only [cancelMeasurement, dropDynamicLine, clearMeasurement]
  cases s.dynamicLine <;> simp only [] <;> split <;> rfl

theorem sceneOK_step (H : Host R) {s : State R} (e : Event R)
    (h : SceneOK s.scene s.nextId) : SceneOK (step H s e).scene (step H s e).nextId := by
  cases e with
  | setOrbit => exact h
  | setPan => exact h
  | setZoom => exact h
  | setDistance => exact sceneOK_clearMeasurement (s := _) h
  | setAngle => exact sceneOK_clearMeasurement (s := _) h
  | setArea => exact sceneOK_clearMeasurement (s := _) h
  | click pick => exact sceneOK_onModelClick H pick h
  | move pick => exact sceneOK_onMouseMove H pick h
  | cancel =>
    show SceneOK (cancelMeasurement s).scene (cancelMeasurement s).nextId
    rw [cancelMeasurement_scene, cancelMeasurement_nextId]
    exact (sceneOK_clearMeasurement h).removeIf _

theorem firstMarker_step (H : Host R) {s : State R} (e : Event R)
    (h : s.firstPointMarker.isSome = true ↔ s.polygonPoints ≠ []) :
    (step H s e).firstPointMarker.isSome = true ↔ (step H s e).polygonPoints ≠ [] := by
  cases e with
  | setOrbit => exact h
  | setPan => exact h
  | setZoom => exact h
  | setDistance => exact h
  | setAngle => exact h
  | setArea => simp [step, setAreaMeasure, toggleMeasureMenu, clearMeasurement]
  | click pick =>
    simp only [step, onModelClick, closePolygon, addPolygonPoint, showDistance, showAngle,
      createPointMarker, dropDynamicLine]
    repeat' split
    all_goals first | exact h | (simp <;> assumption)
  | move pick =>
    simp only [step, onMouseMove, updateAreaPolygon, updateDynamicLine]
    repeat' split
    all_goals exact h
  | cancel =>
    simp only [step, cancelMeasurement, dropDynamicLine, clearMeasurement]
    repeat' split
    all_goals simp

theorem modes_step (H : Host R) {s : State R} (e : Event R)
    (h : s.measurementMode ≠ .none → s.currentMode = .measure) :
    (step H s e).measurementMode ≠ .none → (step H s e).currentMode = .measure := by
  cases e with
  | setOrbit => intro h'; exact absurd rfl h'
  | setPan => intro h'; exact absurd rfl h'
  | setZoom => intro h'; exact absurd rfl h'
  | setDistance => intro _; rfl
  | setAngle => intro _; rfl
  | setArea => intro _; rfl
  | click pick =>
    simp only [step, onModelClick, closePolygon, addPolygonPoint, showDistance, showAngle,
      createPointMarker, dropDynamicLine]
    repeat' split
    all_goals exact h
  | move pick =>
    simp only [step, onMouseMove, updateAreaPolygon, updateDynamicLine]
    repeat' split
    all_goals exact h
  | cancel =>
    simp only [step, cancelMeasurement, dropDynamicLine, clearMeasurement]
    repeat' split
    all_goals (intro h'; exact absurd rfl h')

omit [LinearOrderedField R] in
theorem inv_initialState : Inv (initialState R) := by
  refine ⟨⟨by simp [initialState], ?_⟩, by simp [initialState], by simp [initialState]⟩
  intro o ho
  simp only [initialState, List.mem_cons, List.mem_singleton, List.not_mem_nil, or_false] at ho
  rcases ho with rfl | rfl | rfl <;> simp [SceneObj.id, initialState]

theorem inv_step (H : Host R) {s : State R} (e : Event R) (h : Inv s) : Inv (step H s e) :=
  ⟨sceneOK_step H e h.sceneOK, firstMarker_step H e h.firstMarker, modes_step H e h.modes⟩

theorem inv_run (H : Host R) (events : List (Event R)) :
    ∀ {s : State R}, Inv s → Inv (run H s events) := by
  induction events with
  | nil => intro s h; exact h
  | cons e es ih => intro s h; exact ih (inv_step H e h)

theorem Reachable.inv {H : Host R} {s : State R} (h : Reachable H s) : Inv s := by
  obtain ⟨events, rfl⟩ := h
  exact inv_run H events inv_initialState

theorem clearMeasurement_mem_iff {s : State R} (h : s.scene.Nodup) (x : SceneObj R) :
    x ∈ (clearMeasurement s).scene ↔
      x ∈ s.scene ∧ s.measurementLine.map SceneObj.line ≠ some x ∧
        s.measurementText.map SceneObj.sprite ≠ some x ∧
        s.dynamicLine.map SceneObj.line ≠ some x ∧
        x ∉ s.polygonLines.map SceneObj.line ∧ x ∉ s.pointMarkers.map SceneObj.marker := by
  have h1 := nodup_removeIf h (s.measurementLine.map SceneObj.line)
  have h2 := nodup_removeIf h1 (s.measurementText.map SceneObj.sprite)
  have h3 := nodup_removeIf h2 (s.dynamicLine.map SceneObj.line)
  have h4 := nodup_removeEach (s.polygonLines.map SceneObj.line) h3
  simp only [clearMeasurement]
  rw [mem_removeEach_iff _ h4, mem_removeEach_iff _ h3, mem_removeIf_iff h2, mem_removeIf_iff h1,
    mem_removeIf_iff h]
  tauto

theorem clearMeasurement_mem_of_untracked {s : State R} {x : SceneObj R} (hx : x ∈ s.scene)
    (h1 : s.measurementLine.map SceneObj.line ≠ some x)
    (h2 : s.measurementText.map SceneObj.sprite ≠ some x)
    (h3 : s.dynamicLine.map SceneObj.line ≠ some x)
    (h4 : x ∉ s.polygonLines.map SceneObj.line) (h5 : x ∉ s.pointMarkers.map SceneObj.marker) :
    x ∈ (clearMeasurement s).scene := by
  simp only [clearMeasurement]
  exact mem_removeEach_of_not_mem _ (mem_removeEach_of_not_mem _
    (mem_removeIf_of_ne (mem_removeIf_of_ne (mem_removeIf_of_ne hx h1) h2) h3) h4) h5

theorem cancelMeasurement_fields (s : State R) :
    (cancelMeasurement s).measurementMode = .none ∧ (cancelMeasurement s).selectedPoints = [] ∧
    (cancelMeasurement s).polygonPoints = [] ∧ (cancelMeasurement s).firstPointMarker = none ∧
    (cancelMeasurement s).dynamicLine = none ∧ (cancelMeasurement s).pointMarkers = [] ∧
    (cancelMeasurement s).polygonLines = [] := by
  simp only [cancelMeasurement, dropDynamicLine, clearMeasurement]
  cases s.dynamicLine <;> simp only [] <;> split <;> simp

omit [LinearOrderedField R] in
theorem labels_append (l₁ l₂ : List (SceneObj R)) : labels (l₁ ++ l₂) = labels l₁ ++ labels l₂ := by
  simp [labels, List.filterMap_append]

omit [LinearOrderedField R] in
theorem markers_append (l₁ l₂ : List (SceneObj R)) :
    markers (l₁ ++ l₂) = markers l₁ ++ markers l₂ := by
  simp [markers, List.filterMap_append]

theorem filterMap_erase_of_none {α β : Type} [DecidableEq α] (f : α → Option β) (a : α)
    (ha : f a = none) (l : List α) : (l.erase a).filterMap f = l.filterMap f := by
  induction l with
  | nil => rfl
  | cons b l ih =>
    by_cases hb : b = a
    · subst hb
      rw [List.erase_cons_head, List.filterMap_cons_none ha]
    · rw [List.erase_cons_tail (by simpa using hb)]
      cases hfb : f b with
      | none => rw [List.filterMap_cons_none hfb, List.filterMap_cons_none hfb, ih]
      | some c => rw [List.filterMap_cons_some hfb, List.filterMap_cons_some hfb, ih]

theorem labels_erase_line (l : List (SceneObj R)) (d : Line R) :
    labels (l.erase (SceneObj.line d)) = labels l :=
  filterMap_erase_of_none _ _ rfl l

theorem markers_erase_line (l : List (SceneObj R)) (d : Line R) :
    markers (l.erase (SceneObj.line d)) = markers l :=
  filterMap_erase_of_none _ _ rfl l

theorem labels_removeIf_line (l : List (SceneObj R)) (d : Option (Line R)) :
    labels (removeIf l (d.map SceneObj.line)) = labels l := by
  cases d with
  | none => rfl
  | some d => exact labels_erase_line l d

theorem markers_removeIf_line (l : List (SceneObj R)) (d : Option (Line R)) :
    markers (removeIf l (d.map SceneObj.line)) = markers l := by
  cases d with
  | none => rfl
  | some d => exact markers_erase_line l d

theorem closesPolygon_iff (H : Host R) {s : State R} (h : Inv s) (p : Vec3 R) :
    closesPolygon H s p ↔
      3 ≤ s.polygonPoints.length ∧ p.distanceTo H (nth s.polygonPoints 0) < 1 / 2 := by
  unfold closesPolygon
  constructor
  · rintro ⟨h1, _, h3⟩
    exact ⟨h1, h3⟩
  · rintro ⟨h1, h3⟩
    refine ⟨h1, h.firstMarker.2 ?_, h3⟩
    intro hnil
    rw [hnil] at h1
    simp at h1

theorem onModelClick_area_close (H : Host R) {s : State R} {p : Vec3 R}
    (hm : s.measurementMode = .area) (hc : closesPolygon H s p) :
    onModelClick H s (some p) = closePolygon s := by
  simp [onModelClick, hm, hc]

theorem onModelClick_area_add (H : Host R) {s : State R} {p : Vec3 R}
    (hm : s.measurementMode = .area) (hc : ¬ closesPolygon H s p) :
    onModelClick H s (some p) = addPolygonPoint s p := by
  simp [onModelClick, hm, hc]

theorem addPolygonPoint_fields (s : State R) (p : Vec3 R) :
    (addPolygonPoint s p).polygonPoints = s.polygonPoints ++ [p] ∧
    (addPolygonPoint s p).pointMarkers = s.pointMarkers ++ [⟨s.nextId, p⟩] ∧
    SceneObj.marker ⟨s.nextId, p⟩ ∈ (addPolygonPoint s p).scene := by
  simp only [addPolygonPoint, createPointMarker]
  split <;> split <;> simp

theorem foldl_add_eq_sum (f : ℕ → R) (n : ℕ) :
    (List.range n).foldl (fun acc i => acc + f i) 0 = ∑ i in Finset.range n, f i := by
  induction n with
  | zero => simp
  | succ n ih => rw [List.range_succ, List.foldl_append, ih, Finset.sum_range_succ]; rfl

theorem crossTerm_eq_get (points : List (Vec3 R)) (i : Fin points.length) :
    crossTerm points i.val
      = (points.get i).x * (points.get ⟨(i.val + 1) % points.length, Nat.mod_lt _ i.pos⟩).z
        - (points.get ⟨(i.val + 1) % points.length, Nat.mod_lt _ i.pos⟩).x * (points.get i).z := by
  have h1 : nth points i.val = points.get i := by
    rw [nth, List.getD_eq_getElem _ _ i.isLt]; rfl
  have h2 : nth points ((i.val + 1) % points.length)
      = points.get ⟨(i.val + 1) % points.length, Nat.mod_lt _ i.pos⟩ := by
    rw [nth, List.getD_eq_getElem _ _ (Nat.mod_lt (i.val + 1) i.pos)]; rfl
  rw [crossTerm, h1, h2]

theorem crossTerm_map_y (f : Vec3 R → R) (points : List (Vec3 R)) (i : ℕ) :
    crossTerm (points.map fun q => ⟨q.x, f q, q.z⟩) i = crossTerm points i := by
  have key : ∀ k, (nth (points.map fun q => (⟨q.x, f q, q.z⟩ : Vec3 R)) k).x = (nth points k).x ∧
      (nth (points.map fun q => (⟨q.x, f q, q.z⟩ : Vec3 R)) k).z = (nth points k).z := by
    intro k
    simp only [nth, List.getD_eq_getElem?_getD, List.getElem?_map]
    cases points[k]? <;> simp
  simp only [crossTerm, List.length_map, (key _).1, (key _).2]

theorem sum_range_shift (f : ℕ → R) (n : ℕ) :
    ∑ i in Finset.range n, f ((i + 1) % n) = ∑ i in Finset.range n, f i := by
  cases n with
  | zero => simp
  | succ m =>
    rw [Finset.sum_range_succ, Finset.sum_range_succ', Nat.mod_self]
    congr 1
    apply Finset.sum_congr rfl
    intro i hi
    rw [Nat.mod_eq_of_lt (Nat.succ_lt_succ (Finset.mem_range.1 hi))]

theorem centroidSums_fst (points : List (Vec3 R)) :
    (centroidSums points).1 = ∑ i in Finset.range points.length, crossTerm points i := by
  rw [← foldl_add_eq_sum, centroidSums]
  generalize List.range points.length = is
  have key : ∀ (acc : R × R × R) (a : R), acc.1 = a →
      (is.foldl (fun acc i =>
        (acc.1 + crossTerm points i,
         acc.2.1 + ((nth points i).x + (nth points ((i + 1) % points.length)).x)
            * crossTerm points i,
         acc.2.2 + ((nth points i).z + (nth points ((i + 1) % points.length)).z)
            * crossTerm points i)) acc).1
        = is.foldl (fun area i => area + crossTerm points i) a := by
    induction is with
    | nil => intro acc a h; exact h
    | cons i is ih =>
      intro acc a h
      simp only [List.foldl_cons]
      exact ih _ _ (by rw [h])
  exact key _ _ rfl

theorem nth_mem {points : List (Vec3 R)} {i : ℕ} (h : i < points.length) :
    nth points i ∈ points := by
  rw [nth, List.getD_eq_getElem _ _ h]
  exact List.getElem_mem h

theorem sum_crossTerm_of_collinear {points : List (Vec3 R)} (h : CollinearXZ points) :
    ∑ i in Finset.range points.length, crossTerm points i = 0 := by
  have key : ∀ i ∈ Finset.range points.length,
      crossTerm points i
        = ((nth points 0).x * (nth points ((i + 1) % points.length)).z
            - (nth points 0).z * (nth points ((i + 1) % points.length)).x)
          - ((nth points 0).x * (nth points i).z - (nth points 0).z * (nth points i).x) := by
    intro i hi
    have hi' : i < points.length := Finset.mem_range.1 hi
    have hn : 0 < points.length := Nat.lt_of_le_of_lt (Nat.zero_le _) hi'
    have hc := h _ (nth_mem hn) _ (nth_mem hi') _ (nth_mem (Nat.mod_lt (i + 1) hn))
    rw [crossTerm]
    linear_combination hc
  rw [Finset.sum_congr rfl key, Finset.sum_sub_distrib,
    sum_range_shift (fun k => (nth points 0).x * (nth points k).z
      - (nth points 0).z * (nth points k).x), sub_self]

theorem removeIf_eq_self {scene : List (SceneObj R)} {o : Option (SceneObj R)}
    (h : ∀ x, o = some x → x ∉ scene) : removeIf scene o = scene := by
  cases o with
  | none => rfl
  | some obj => exact List.erase_of_not_mem (h obj rfl)

theorem clearMeasurement_scene_subset {s : State R} {x : SceneObj R}
    (h : x ∈ (clearMeasurement s).scene) : x ∈ s.scene := by
  simp only [clearMeasurement] at h
  exact mem_of_mem_removeIf (mem_of_mem_removeIf (mem_of_mem_removeIf
    (mem_of_mem_removeEach _ (mem_of_mem_removeEach _ h))))

theorem clearMeasurement_scene_fixed (s t : State R) (h : s.scene.Nodup)
    (hsc : t.scene = (clearMeasurement s).scene)
    (h1 : t.measurementLine = s.measurementLine) (h2 : t.measurementText = s.measurementText)
    (h3 : t.dynamicLine = s.dynamicLine) (h4 : t.polygonLines = []) (h5 : t.pointMarkers = []) :
    (clearMeasurement t).scene = t.scene := by
  have hmem := fun x => clearMeasurement_mem_iff h x
  have e1 : ∀ x, t.measurementLine.map SceneObj.line = some x → x ∉ t.scene := by
    intro x hx hin
    rw [hsc] at hin; rw [h1] at hx
    exact ((hmem x).1 hin).2.1 hx
  have e2 : ∀ x, t.measurementText.map SceneObj.sprite = some x → x ∉ t.scene := by
    intro x hx hin
    rw [hsc] at hin; rw [h2] at hx
    exact ((hmem x).1 hin).2.2.1 hx
  have e3 : ∀ x, t.dynamicLine.map SceneObj.line = some x → x ∉ t.scene := by
    intro x hx hin
    rw [hsc] at hin; rw [h3] at hx
    exact ((hmem x).1 hin).2.2.2.1 hx
  simp only [clearMeasurement, h4, h5, List.map_nil]
  rw [removeIf_eq_self e1, removeIf_eq_self e2, removeIf_eq_self e3]
  rfl

theorem capacity_step (H : Host R) {s : State R} (e : Event R)
    (h : (s.measurementMode = .distance → s.selectedPoints.length ≤ 1) ∧
      (s.measurementMode = .angle → s.selectedPoints.length ≤ 2)) :
    ((step H s e).measurementMode = .distance → (step H s e).selectedPoints.length ≤ 1) ∧
    ((step H s e).measurementMode = .angle → (step H s e).selectedPoints.length ≤ 2) := by
  cases e with
  | setOrbit => simp [step, setOrbitMode]
  | setPan => simp [step, setPanMode]
  | setZoom => simp [step, setZoomMode]
  | setDistance => simp [step, setDistanceMeasure, toggleMeasureMenu, clearMeasurement]
  | setAngle => simp [step, setAngleMeasure, toggleMeasureMenu, clearMeasurement]
  | setArea => simp [step, setAreaMeasure, toggleMeasureMenu, clearMeasurement]
  | click pick =>
    simp only [step, onModelClick, closePolygon, addPolygonPoint, showDistance, showAngle,
      createPointMarker, dropDynamicLine]
    obtain ⟨hd, ha⟩ := h
    repeat' split
    all_goals first
      | exact ⟨hd, ha⟩
      | (refine ⟨?_, ?_⟩ <;> intro hm <;> simp_all <;>
          first | omega | exact List.eq_nil_of_length_eq_zero (by omega))
  | move pick =>
    simp only [step, onMouseMove, updateAreaPolygon, updateDynamicLine]
    repeat' split
    all_goals exact h
  | cancel =>
    simp only [step, cancelMeasurement, dropDynamicLine, clearMeasurement]
    repeat' split
    all_goals simp

theorem capacity_run (H : Host R) (events : List (Event R)) :
    ∀ {s : State R},
      ((s.measurementMode = .distance → s.selectedPoints.length ≤ 1) ∧
        (s.measurementMode = .angle → s.selectedPoints.length ≤ 2)) →
      (((run H s events).measurementMode = .distance →
          (run H s events).selectedPoints.length ≤ 1) ∧
        ((run H s events).measurementMode = .angle →
          (run H s events).selectedPoints.length ≤ 2)) := by
  induction events with
  | nil => intro s h; exact h
  | cons e es ih => intro s h; exact ih (capacity_step H e h)

theorem mem_erase_append_self_of_mem {α : Type} [DecidableEq α] {X : List α} {a x : α}
    (h : x ∈ X) : x ∈ (X ++ [a]).erase a := by
  by_cases hx : x = a
  · subst hx
    rw [List.erase_append_left _ h]
    exact List.mem_append_right _ (List.mem_singleton_self x)
  · exact (List.mem_erase_of_ne hx).2 (List.mem_append_left _ h)

theorem mem_of_mem_erase_append_self {α : Type} [DecidableEq α] {X : List α} {a x : α}
    (h : x ∈ (X ++ [a]).erase a) : x ∈ X := by
  by_cases ha : a ∈ X
  · rw [List.erase_append_left _ ha] at h
    rcases List.mem_append.1 h with h | h
    · exact List.mem_of_mem_erase h
    · rw [List.mem_singleton.1 h]; exact ha
  · rw [List.erase_append_right _ ha] at h
    simpa using h

theorem onMouseMove_scene (H : Host R) (s : State R) (pick : Option (Vec3 R)) :
    (∀ x ∈ s.scene, s.dynamicLine.map SceneObj.line ≠ some x →
      x ∈ (onMouseMove H s pick).scene) ∧
    (∀ x ∈ (onMouseMove H s pick).scene,
      x ∈ s.scene ∨ (onMouseMove H s pick).dynamicLine.map SceneObj.line = some x) := by
  simp only [onMouseMove, updateAreaPolygon, updateDynamicLine]
  repeat' split
  all_goals first
    | exact ⟨fun x hx _ => hx, fun x hx => Or.inl hx⟩
    | exact ⟨fun x hx hne => mem_removeIf_of_ne hx hne,
        fun x hx => Or.inl (mem_of_mem_removeIf hx)⟩
    | exact ⟨fun x hx hne => List.mem_append_left _ (mem_removeIf_of_ne hx hne),
        fun x hx => (List.mem_append.1 hx).elim (fun h => Or.inl (mem_of_mem_removeIf h))
          (fun h => Or.inr (by rw [List.mem_singleton.1 h]; rfl))⟩
    | exact ⟨fun x hx hne => List.mem_append_left _
          (mem_erase_append_self_of_mem (mem_removeIf_of_ne hx hne)),
        fun x hx => (List.mem_append.1 hx).elim
          (fun h => Or.inl (mem_of_mem_removeIf (mem_of_mem_erase_append_self h)))
          (fun h => Or.inr (by rw [List.mem_singleton.1 h]; rfl))⟩

theorem onMouseMove_fields (H : Host R) (s : State R) (pick : Option (Vec3 R)) :
    (onMouseMove H s pick).measurementMode = s.measurementMode ∧
    (onMouseMove H s pick).currentMode = s.currentMode ∧
    (onMouseMove H s pick).selectedPoints = s.selectedPoints ∧
    (onMouseMove H s pick).polygonPoints = s.polygonPoints ∧
    (onMouseMove H s pick).firstPointMarker = s.firstPointMarker ∧
    (onMouseMove H s pick).pointMarkers = s.pointMarkers ∧
    (onMouseMove H s pick).polygonLines = s.polygonLines ∧
    (onMouseMove H s pick).measurementLine = s.measurementLine ∧
    (onMouseMove H s pick).measurementText = s.measurementText := by
  simp only [onMouseMove, updateAreaPolygon, updateDynamicLine]
  repeat' split
  all_goals exact ⟨rfl, rfl, rfl, rfl, rfl, rfl, rfl, rfl, rfl⟩

theorem nth_rotate (points : List (Vec3 R)) (m : ℕ) {k : ℕ} (hk : k < points.length) :
    nth (points.rotate m) k = nth points ((k + m) % points.length) := by
  have hk' : k < (points.rotate m).length := by rw [List.length_rotate]; exact hk
  have hmod : (k + m) % points.length < points.length :=
    Nat.mod_lt _ (Nat.lt_of_le_of_lt (Nat.zero_le _) hk)
  rw [nth, nth, List.getD_eq_getElem _ _ hk', List.getD_eq_getElem _ _ hmod,
    List.getElem_rotate]

theorem nth_reverse (points : List (Vec3 R)) {k : ℕ} (hk : k < points.length) :
    nth points.reverse k = nth points (points.length - 1 - k) := by
  have hk' : k < points.reverse.length := by rw [List.length_reverse]; exact hk
  have hsub : points.length - 1 - k < points.length := by omega
  rw [nth, nth, List.getD_eq_getElem _ _ hk', List.getD_eq_getElem _ _ hsub,
    List.getElem_reverse]

theorem sum_crossTerm_rotate_one (points : List (Vec3 R)) :
    ∑ i in Finset.range (points.rotate 1).length, crossTerm (points.rotate 1) i
      = ∑ i in Finset.range points.length, crossTerm points i := by
  rw [List.length_rotate, ← sum_range_shift (crossTerm points)]
  apply Finset.sum_congr rfl
  intro i hi
  have hi' : i < points.length := Finset.mem_range.1 hi
  have hn : 0 < points.length := Nat.lt_of_le_of_lt (Nat.zero_le _) hi'
  have hj : (i + 1) % points.length < points.length := Nat.mod_lt _ hn
  simp only [crossTerm, List.length_rotate]
  rw [nth_rotate points 1 hi', nth_rotate points 1 hj]

theorem sum_crossTerm_reverse (points : List (Vec3 R)) :
    ∑ i in Finset.range points.reverse.length, crossTerm points.reverse i
      = - ∑ i in Finset.range points.length, crossTerm points i := by
  rw [List.length_reverse, ← Finset.sum_neg_distrib,
    ← Finset.sum_range_reflect (fun k => - crossTerm points k),
    ← sum_range_shift (fun j => - crossTerm points (points.length - 1 - j))]
  apply Finset.sum_congr rfl
  intro i hi
  have hi' : i < points.length := Finset.mem_range.1 hi
  have hn : 0 < points.length := Nat.lt_of_le_of_lt (Nat.zero_le _) hi'
  have hj : (i + 1) % points.length < points.length := Nat.mod_lt _ hn
  have hk : (points.length - 1 - (i + 1) % points.length + 1) % points.length
      = points.length - 1 - i := by
    by_cases hlast : i + 1 < points.length
    · rw [Nat.mod_eq_of_lt hlast]
      have : points.length - 1 - (i + 1) + 1 = points.length - 1 - i := by omega
      rw [this, Nat.mod_eq_of_lt (by omega)]
    · have hi1 : i + 1 = points.length := by omega
      rw [hi1, Nat.mod_self, Nat.sub_zero, Nat.sub_add_cancel hn, Nat.mod_self]
      omega
  simp only [crossTerm, List.length_reverse]
  rw [nth_reverse points hi', nth_reverse points hj, hk]
  ring

theorem nextId_le_step (H : Host R) (s : State R) (e : Event R) :
    s.nextId ≤ (step H s e).nextId := by
  cases e with
  | setOrbit => exact Nat.le_refl _
  | setPan => exact Nat.le_refl _
  | setZoom => exact Nat.le_refl _
  | setDistance => exact Nat.le_refl _
  | setAngle => exact Nat.le_refl _
  | setArea => exact Nat.le_refl _
  | click pick =>
    simp only [step, onModelClick, closePolygon, addPolygonPoint, showDistance, showAngle,
      createPointMarker, dropDynamicLine]
    repeat' split
    all_goals first | exact Nat.le_refl _ | omega | (simp only []; omega)
  | move pick =>
    simp only [step, onMouseMove, updateAreaPolygon, updateDynamicLine]
    repeat' split
    all_goals first | exact Nat.le_refl _ | omega | (simp only []; omega)
  | cancel => rw [step, cancelMeasurement_nextId]

omit [LinearOrderedField R] in
theorem origin_refl (n : Nat) (scene : List (SceneObj R)) : Origin n scene scene :=
  fun _ ho => Or.inl ho

theorem origin_erase {n : Nat} {scene X : List (SceneObj R)} (h : Origin n scene X)
    (a : SceneObj R) : Origin n scene (X.erase a) :=
  fun o ho => h o (List.mem_of_mem_erase ho)

theorem origin_removeIf {n : Nat} {scene X : List (SceneObj R)} (h : Origin n scene X)
    (a : Option (SceneObj R)) : Origin n scene (removeIf X a) :=
  fun o ho => h o (mem_of_mem_removeIf ho)

theorem origin_removeEach {n : Nat} {scene X : List (SceneObj R)} (h : Origin n scene X)
    (os : List (SceneObj R)) : Origin n scene (removeEach X os) :=
  fun o ho => h o (mem_of_mem_removeEach os ho)

omit [LinearOrderedField R] in
theorem origin_push {n : Nat} {scene X : List (SceneObj R)} (h : Origin n scene X)
    {a : SceneObj R} (ha : n ≤ a.id) : Origin n scene (X ++ [a]) := by
  intro o ho
  rcases List.mem_append.1 ho with ho | ho
  · exact h o ho
  · rw [List.mem_singleton.1 ho]; exact Or.inr ha

theorem origin_clearMeasurement (s : State R) :
    Origin s.nextId s.scene (clearMeasurement s).scene := by
  unfold clearMeasurement
  exact origin_removeEach (origin_removeEach (origin_removeIf (origin_removeIf (origin_removeIf
    (origin_refl _ _) _) _) _) _) _

theorem origin_step (H : Host R) (s : State R) (e : Event R) :
    Origin s.nextId s.scene (step H s e).scene := by
  cases e with
  | setOrbit => exact origin_refl _ _
  | setPan => exact origin_refl _ _
  | setZoom => exact origin_refl _ _
  | setDistance => exact origin_clearMeasurement _
  | setAngle => exact origin_clearMeasurement _
  | setArea => exact origin_clearMeasurement _
  | click pick =>
    simp only [step, onModelClick, closePolygon, addPolygonPoint, showDistance, showAngle,
      createPointMarker, dropDynamicLine]
    repeat' split
    all_goals
      repeat' first
        | exact origin_refl _ _
        | apply origin_erase
        | apply origin_removeIf
        | refine origin_push ?_ (by simp only [SceneObj.id]; omega)
  | move pick =>
    simp only [step, onMouseMove, updateAreaPolygon, updateDynamicLine]
    repeat' split
    all_goals
      repeat' first
        | exact origin_refl _ _
        | apply origin_erase
        | apply origin_removeIf
        | refine origin_push ?_ (by simp only [SceneObj.id]; omega)
  | cancel =>
    show Origin s.nextId s.scene (cancelMeasurement s).scene
    rw [cancelMeasurement_scene]
    exact origin_removeIf (origin_clearMeasurement s) _

theorem dynamicLine_kept_click (H : Host R) {s : State R} (h : SceneOK s.scene s.nextId)
    (pick : Option (Vec3 R)) :
    ∀ o ∈ (onModelClick H s pick).scene, s.dynamicLine.map SceneObj.line = some o →
      (onModelClick H s pick).dynamicLine.map SceneObj.line = some o := by
  simp only [onModelClick, closePolygon, addPolygonPoint, showDistance, showAngle,
    createPointMarker, dropDynamicLine]
  repeat' split
  all_goals first
    | exact fun o _ h => h
    | (intro o ho hd
       simp only [*, Option.map_some', Option.some.injEq] at hd
       subst hd
       refine absurd ho (List.Nodup.not_mem_erase ?_)
       refine (SceneOK.push (SceneOK.push (SceneOK.push h ?_) ?_) ?_).1 <;> rfl)

theorem dynamicLine_kept_move (H : Host R) {s : State R} (h : SceneOK s.scene s.nextId)
    (pick : Option (Vec3 R)) :
    ∀ o ∈ (onMouseMove H s pick).scene, s.dynamicLine.map SceneObj.line = some o →
      (onMouseMove H s pick).dynamicLine.map SceneObj.line = some o := by
  have hX : ∀ x, x ∈ removeIf s.scene (s.dynamicLine.map SceneObj.line) →
      s.dynamicLine.map SceneObj.line ≠ some x :=
    fun x hx => ((mem_removeIf_iff h.1 _ _).1 hx).2
  simp only [onMouseMove, updateAreaPolygon, updateDynamicLine]
  repeat' split
  all_goals first
    | exact fun o _ h => h
    | (intro o ho hd
       simp only [List.mem_append, List.mem_singleton, removeIf, Option.map_some'] at ho
       rcases ho with ho | ho
       · first
           | exact absurd hd (hX o ho)
           | exact absurd hd (hX o (mem_of_mem_erase_append_self ho))
       · rw [ho]; rfl)

theorem dynamicLine_kept (H : Host R) {s : State R} (h : SceneOK s.scene s.nextId)
    (e : Event R) :
    ∀ o ∈ (step H s e).scene, s.dynamicLine.map SceneObj.line = some o →
      (step H s e).dynamicLine.map SceneObj.line = some o := by
  cases e with
  | setOrbit => exact fun o _ h => h
  | setPan => exact fun o _ h => h
  | setZoom => exact fun o _ h => h
  | setDistance => exact fun o _ h => h
  | setAngle => exact fun o _ h => h
  | setArea => exact fun o _ h => h
  | click pick => exact dynamicLine_kept_click H h pick
  | move pick => exact dynamicLine_kept_move H h pick
  | cancel =>
    intro o ho hd
    have ho' : o ∈ (cancelMeasurement s).scene := ho
    rw [cancelMeasurement_scene] at ho'
    exact absurd hd ((clearMeasurement_mem_iff h.1 o).1 (mem_of_mem_removeIf ho')).2.2.2.1

theorem liveInv_stepLive (H : Host R) {sl : State R × List Nat} (e : Event R)
    (h : LiveInv sl.1 sl.2) : LiveInv (stepLive H sl e).1 (stepLive H sl e).2 := by
  obtain ⟨hok, hold, hdyn⟩ := h
  have hle := nextId_le_step H sl.1 e
  have horigin := origin_step H sl.1 e
  have hkept := dynamicLine_kept H hok e
  have hsub : (stepLive H sl e).2 ⊆
      sl.2 ++ List.range' sl.1.nextId ((step H sl.1 e).nextId - sl.1.nextId) := by
    intro id hid
    cases e <;> first
      | exact hid
      | exact List.mem_append_left _ hid
  refine ⟨sceneOK_step H e hok, ?_, ?_⟩
  · intro id hid
    rcases List.mem_append.1 (hsub hid) with h1 | h1
    · exact Nat.lt_of_lt_of_le (hold id h1) hle
    · have := (List.mem_range'_1.1 h1).2
      show id < (step H sl.1 e).nextId
      omega
  · intro o ho hid
    have ho' : o ∈ (step H sl.1 e).scene := ho
    rcases horigin o ho' with hin | hnew
    · have hlt := hok.2 o hin
      have hlive : o.id ∈ sl.2 := by
        rcases List.mem_append.1 (hsub hid) with h1 | h1
        · exact h1
        · have := (List.mem_range'_1.1 h1).1
          omega
      exact hkept o ho' (hdyn o hin hlive)
    · have hnot : o.id ∉ sl.2 := fun hc => by
        have := hold _ hc
        omega
      cases e with
      | move pick =>
        rcases (onMouseMove_scene H sl.1 pick).2 o ho' with hin | hd
        · have := hok.2 o hin
          omega
        · exact hd
      | _ => exact absurd hid hnot

omit [LinearOrderedField R] in
theorem liveInv_initial : LiveInv (initialState R) [] :=
  ⟨(inv_initialState (R := R)).sceneOK, fun _ h => absurd h (List.not_mem_nil _),
    fun _ _ h => absurd h (List.not_mem_nil _)⟩

theorem liveInv_foldl (H : Host R) (events : List (Event R)) :
    ∀ {sl : State R × List Nat}, LiveInv sl.1 sl.2 →
      LiveInv (events.foldl (stepLive H) sl).1 (events.foldl (stepLive H) sl).2 := by
  induction events with
  | nil => intro sl h; exact h
  | cons e es ih => intro sl h; exact ih (liveInv_stepLive H e h)

theorem length_le_one_of_nodup_of_eq {α : Type} {l : List α} (hn : l.Nodup) (a : α)
    (h : ∀ x ∈ l, x = a) : l.length ≤ 1 := by
  match l, hn, h with
  | [], _, _ => simp
  | [x], _, _ => simp
  | x :: y :: t, hn, h =>
    have hx := h x (List.mem_cons_self _ _)
    have hy := h y (List.mem_cons_of_mem _ (List.mem_cons_self _ _))
    rw [hx, hy] at hn
    simp at hn

/-- What `cancelMeasurement` keeps in the scene and what it removes, by tracking variable. -/
theorem cancelMeasurement_mem_of_untracked (s : State R) :
    (∀ t, SceneObj.sprite t ∈ s.scene → s.measurementText ≠ some t →
      SceneObj.sprite t ∈ (cancelMeasurement s).scene) ∧
    (∀ l, SceneObj.line l ∈ s.scene → s.measurementLine ≠ some l → s.dynamicLine ≠ some l →
      l ∉ s.polygonLines → SceneObj.line l ∈ (cancelMeasurement s).scene) ∧
    (s.scene.Nodup →
      (∀ t, s.measurementText = some t → SceneObj.sprite t ∉ (cancelMeasurement s).scene) ∧
      (∀ l, s.measurementLine = some l → SceneObj.line l ∉ (cancelMeasurement s).scene)) := by
  refine ⟨?_, ?_, ?_⟩
  · intro t ht hne
    rw [cancelMeasurement_scene]
    refine mem_removeIf_of_ne (clearMeasurement_mem_of_untracked ht ?_ ?_ ?_ ?_ ?_) ?_
    · cases s.measurementLine <;> simp
    · cases h : s.measurementText with
      | none => simp
      | some t' => rw [h] at hne; simpa using hne
    · cases s.dynamicLine <;> simp
    · simp
    · simp
    · cases s.dynamicLine <;> simp
  · intro l hl h1 h2 h3
    rw [cancelMeasurement_scene]
    have hd : s.dynamicLine.map SceneObj.line ≠ some (SceneObj.line l) := by
      cases h : s.dynamicLine with
      | none => simp
      | some d => rw [h] at h2; simpa using h2
    refine mem_removeIf_of_ne (clearMeasurement_mem_of_untracked hl ?_ ?_ hd ?_ ?_) hd
    · cases h : s.measurementLine with
      | none => simp
      | some d => rw [h] at h1; simpa using h1
    · cases s.measurementText <;> simp
    · simpa using h3
    · simp
  · intro hn
    refine ⟨?_, ?_⟩
    · intro t ht hmem
      rw [cancelMeasurement_scene] at hmem
      have := (clearMeasurement_mem_iff hn _).1 (mem_of_mem_removeIf hmem)
      exact this.2.2.1 (by rw [ht]; rfl)
    · intro l hl hmem
      rw [cancelMeasurement_scene] at hmem
      have := (clearMeasurement_mem_iff hn _).1 (mem_of_mem_removeIf hmem)
      exact this.2.1 (by rw [hl]; rfl)

/-- In exact arithmetic, the shoelace area of an axis-aligned rectangle is the product of
its sides and the centroid formula of the closing branch gives its centre. -/
theorem rectangle_exact (x0 x1 z0 z1 y0 y1 y2 y3 : R) (hx : x0 < x1) (hz : z0 < z1) :
    calculatePolygonArea [⟨x0, y0, z0⟩, ⟨x1, y1, z0⟩, ⟨x1, y2, z1⟩, ⟨x0, y3, z1⟩]
      = (x1 - x0) * (z1 - z0) ∧
    centroidPoint [⟨x0, y0, z0⟩, ⟨x1, y1, z0⟩, ⟨x1, y2, z1⟩, ⟨x0, y3, z1⟩]
      = ⟨(x0 + x1) / 2, (y0 + y1 + y2 + y3) / 4, (z0 + z1) / 2⟩ := by
  have hpos : 0 < (x1 - x0) * (z1 - z0) := mul_pos (sub_pos.2 hx) (sub_pos.2 hz)
  constructor
  · have h : (List.range 4).foldl (fun area i => area +
        crossTerm [(⟨x0, y0, z0⟩ : Vec3 R), ⟨x1, y1, z0⟩, ⟨x1, y2, z1⟩, ⟨x0, y3, z1⟩] i) 0
        = 2 * ((x1 - x0) * (z1 - z0)) := by
      simp [List.range_succ, crossTerm, nth]
      ring
    simp only [calculatePolygonArea, List.length_cons, List.length_nil] at h ⊢
    rw [h, abs_of_pos (by linarith)]
    ring
  · have h : centroidSums [(⟨x0, y0, z0⟩ : Vec3 R), ⟨x1, y1, z0⟩, ⟨x1, y2, z1⟩, ⟨x0, y3, z1⟩]
        = (2 * ((x1 - x0) * (z1 - z0)), 3 * (x0 + x1) * ((x1 - x0) * (z1 - z0)),
            3 * (z0 + z1) * ((x1 - x0) * (z1 - z0))) := by
      simp [centroidSums, List.range_succ, crossTerm, nth]
      refine ⟨by ring, by ring, by ring⟩
    simp only [centroidPoint, h, Vec3.mk.injEq]
    have hne : (x1 - x0) * (z1 - z0) ≠ 0 := ne_of_gt hpos
    refine ⟨?_, ?_, ?_⟩
    · field_simp; ring
    · simp
    · field_simp; ring

/-- In exact arithmetic, the shoelace area is unchanged when the list of points is rotated
or reversed. -/
theorem calculatePolygonArea_exact_rotate_reverse (points : List (Vec3 R)) :
    (∀ k : ℕ, calculatePolygonArea (points.rotate k) = calculatePolygonArea points) ∧
    calculatePolygonArea points.reverse = calculatePolygonArea points := by
  constructor
  · intro k
    induction k with
    | zero => rw [List.rotate_zero]
    | succ k ih =>
      rw [← ih, ← List.rotate_rotate, calculatePolygonArea, calculatePolygonArea,
        foldl_add_eq_sum, foldl_add_eq_sum, sum_crossTerm_rotate_one]
  · rw [calculatePolygonArea, calculatePolygonArea, foldl_add_eq_sum, foldl_add_eq_sum,
      sum_crossTerm_reverse, abs_neg]

theorem lines_step (H : Host R) {s : State R} (e : Event R) (hB : LineIdsOK s) :
    LineIdsOK (step H s e) ∧
    (∀ l, Apart l s → Apart l (step H s e)) ∧
    (∀ l, (step H s e).measurementLine = some l →
      s.measurementLine = some l ∨ Apart l (step H s e)) := by
  obtain ⟨hd, hp⟩ := hB
  cases e with
  | setOrbit => exact ⟨⟨hd, hp⟩, fun l h => h, fun l h => Or.inl h⟩
  | setPan => exact ⟨⟨hd, hp⟩, fun l h => h, fun l h => Or.inl h⟩
  | setZoom => exact ⟨⟨hd, hp⟩, fun l h => h, fun l h => Or.inl h⟩
  | setDistance =>
    refine ⟨⟨hd, ?_⟩, fun l h => ⟨h.1, h.2.1, ?_⟩, fun l h => Or.inl h⟩
    · intro p hp; simp [step, setDistanceMeasure, clearMeasurement, toggleMeasureMenu] at hp
    · intro p hp; simp [step, setDistanceMeasure, clearMeasurement, toggleMeasureMenu] at hp
  | setAngle =>
    refine ⟨⟨hd, ?_⟩, fun l h => ⟨h.1, h.2.1, ?_⟩, fun l h => Or.inl h⟩
    · intro p hp; simp [step, setAngleMeasure, clearMeasurement, toggleMeasureMenu] at hp
    · intro p hp; simp [step, setAngleMeasure, clearMeasurement, toggleMeasureMenu] at hp
  | setArea =>
    refine ⟨⟨hd, ?_⟩, fun l h => ⟨h.1, h.2.1, ?_⟩, fun l h => Or.inl h⟩
    · intro p hp; simp [step, setAreaMeasure, clearMeasurement, toggleMeasureMenu] at hp
    · intro p hp; simp [step, setAreaMeasure, clearMeasurement, toggleMeasureMenu] at hp
  | click pick =>
    simp only [step, onModelClick, closePolygon, addPolygonPoint, showDistance, showAngle,
      createPointMarker, dropDynamicLine, LineIdsOK, Apart]
    repeat' split
    all_goals first
      | exact ⟨⟨hd, hp⟩, fun l h => h, fun l h => Or.inl h⟩
      | (try dsimp only
         refine ⟨⟨?_, ?_⟩, ?_, ?_⟩
         · intro d h
           first
             | (have hlt := hd d h; omega)
             | cases h
         · intro p h
           first
             | (have hlt := hp p h; omega)
             | (rcases List.mem_append.1 h with h | h
                · have := hp p h; omega
                · rw [List.mem_singleton.1 h]; dsimp only; omega)
         · rintro l ⟨h1, h2, h3⟩
           refine ⟨by omega, ?_, ?_⟩
           · intro d h
             first
               | exact h2 d h
               | cases h
           · intro p h
             first
               | exact h3 p h
               | (rcases List.mem_append.1 h with h | h
                  · exact h3 p h
                  · rw [List.mem_singleton.1 h]; dsimp only; omega)
         · intro l h
           first
             | exact Or.inl h
             | (simp only [Option.some.injEq] at h
                subst h
                refine Or.inr ⟨by dsimp only; omega, ?_, ?_⟩
                · intro d h
                  first
                    | (have hlt := hd d h; dsimp only; omega)
                    | cases h
                · intro p h
                  have := hp p h
                  dsimp only
                  omega))
  | move pick =>
    simp only [step, onMouseMove, updateAreaPolygon, updateDynamicLine, LineIdsOK, Apart]
    repeat' split
    all_goals first
      | exact ⟨⟨hd, hp⟩, fun l h => h, fun l h => Or.inl h⟩
      | (try dsimp only
         refine ⟨⟨?_, ?_⟩, ?_, ?_⟩
         · intro d h
           simp only [Option.some.injEq] at h
           subst h
           dsimp only
           omega
         · intro p h
           have := hp p h
           omega
         · rintro l ⟨h1, h2, h3⟩
           refine ⟨by omega, ?_, ?_⟩
           · intro d h
             simp only [Option.some.injEq] at h
             subst h
             dsimp only
             omega
           · intro p h
             exact h3 p h
         · intro l h
           exact Or.inl h)
  | cancel =>
    simp only [step, cancelMeasurement, clearMeasurement, dropDynamicLine, LineIdsOK, Apart]
    repeat' split
    all_goals
      (try dsimp only
       refine ⟨⟨?_, ?_⟩, ?_, ?_⟩
       · intro d h
         first
           | (have hlt := hd d h; omega)
           | cases h
       · intro p h
         simp at h
       · rintro l ⟨h1, h2, h3⟩
         refine ⟨h1, ?_, ?_⟩
         · intro d h
           first
             | exact h2 d h
             | cases h
         · intro p h
           simp at h
       · intro l h
         exact Or.inl h)

theorem lines_run (H : Host R) (events : List (Event R)) :
    ∀ {s : State R}, LineIdsOK s → (∀ l, s.measurementLine = some l → Apart l s) →
      LineIdsOK (run H s events) ∧
        (∀ l, (run H s events).measurementLine = some l → Apart l (run H s events)) := by
  induction events with
  | nil => intro s h1 h2; exact ⟨h1, h2⟩
  | cons e es ih =>
    intro s h1 h2
    obtain ⟨k1, k2, k3⟩ := lines_step H e h1
    refine ih k1 (fun l hl => ?_)
    rcases k3 l hl with h | h
    · exact k2 l (h2 l h)
    · exact h

theorem apart_run (H : Host R) (events : List (Event R)) :
    ∀ {s : State R} (l : Line R), LineIdsOK s → (∀ l, s.measurementLine = some l → Apart l s) →
      Apart l s → Apart l (run H s events) := by
  induction events with
  | nil => intro s l _ _ h; exact h
  | cons e es ih =>
    intro s l h1 h2 h
    obtain ⟨k1, k2, k3⟩ := lines_step H e h1
    refine ih l k1 (fun l hl => ?_) (k2 l h)
    rcases k3 l hl with h | h
    · exact k2 l (h2 l h)
    · exact h

omit [LinearOrderedField R] in
theorem lineIdsOK_initialState :
    LineIdsOK (initialState R) ∧
      ∀ l, (initialState R).measurementLine = some l → Apart l (initialState R) := by
  refine ⟨⟨fun d h => ?_, fun p h => ?_⟩, fun l h => ?_⟩
  · simp [initialState] at h
  · simp [initialState] at h
  · simp [initialState] at h

theorem Reachable.lineIdsOK {H : Host R} {s : State R} (h : Reachable H s) : LineIdsOK s := by
  obtain ⟨events, rfl⟩ := h
  exact (lines_run H events lineIdsOK_initialState.1 lineIdsOK_initialState.2).1

theorem closesPolygon_iff_coords (H : Host R) {s : State R} (h : Inv s) {p0 : Vec3 R}
    {rest : List (Vec3 R)} (hp : s.polygonPoints = p0 :: rest) (p : Vec3 R) :
    closesPolygon H s p ↔
      3 ≤ s.polygonPoints.length ∧
        H.sqrt ((p.x - p0.x) ^ 2 + (p.y - p0.y) ^ 2 + (p.z - p0.z) ^ 2) < 1 / 2 := by
  have hd : p.distanceTo H (nth s.polygonPoints 0)
      = H.sqrt ((p.x - p0.x) ^ 2 + (p.y - p0.y) ^ 2 + (p.z - p0.z) ^ 2) := by
    have : p.distanceToSquared p0 = (p.x - p0.x) ^ 2 + (p.y - p0.y) ^ 2 + (p.z - p0.z) ^ 2 := by
      simp only [Vec3.distanceToSquared, Vec3.lengthSq, Vec3.dot, Vec3.subVectors]; ring
    rw [hp, Vec3.distanceTo, nth, List.getD_cons_zero, this]
  rw [closesPolygon_iff H h p, hd]

theorem centroidSums_rectangle (x0 x1 z0 z1 y0 y1 y2 y3 : R) :
    centroidSums [(⟨x0, y0, z0⟩ : Vec3 R), ⟨x1, y1, z0⟩, ⟨x1, y2, z1⟩, ⟨x0, y3, z1⟩]
      = (2 * ((x1 - x0) * (z1 - z0)), 3 * (x0 + x1) * ((x1 - x0) * (z1 - z0)),
          3 * (z0 + z1) * ((x1 - x0) * (z1 - z0))) := by
  simp [centroidSums, List.range_succ, crossTerm, nth]
  refine ⟨by ring, by ring, by ring⟩

end SceneLemmas

/-! ## Binary64 arithmetic on bounded integers -/

section RoundingLemmas

theorem roundHalfEven_intCast (k : ℤ) : roundHalfEven (k : ℚ) = k := by
  simp [roundHalfEven]

theorem log2Fuel_eq_log : ∀ (fuel n : ℕ), n ≤ fuel → log2Fuel fuel n = Nat.log 2 n := by
  intro fuel
  induction fuel with
  | zero =>
    intro n hn
    rw [Nat.le_zero.1 hn]; simp [log2Fuel]
  | succ f ih =>
    intro n hn
    rw [log2Fuel]
    split
    · rename_i h2
      rw [Nat.log_of_lt h2]
    · rename_i h2
      rw [Nat.log_of_one_lt_of_le (by norm_num) (not_lt.1 h2), ih (n / 2) (by omega)]

theorem natLog2_eq_log (n : ℕ) : natLog2 n = Nat.log 2 n :=
  log2Fuel_eq_log n n (Nat.le_refl n)

theorem zpow_floorLog2_le {q : ℚ} (hq : q ≠ 0) : (2 : ℚ) ^ floorLog2 q ≤ |q| := by
  rw [floorLog2]
  split
  · assumption
  · have hnum : q.num.natAbs ≠ 0 := Int.natAbs_ne_zero.2 (Rat.num_ne_zero.2 hq)
    have h1 : 2 ^ natLog2 q.num.natAbs ≤ q.num.natAbs := by
      rw [natLog2_eq_log]; exact Nat.pow_log_le_self 2 hnum
    have h2 : q.den < 2 ^ (natLog2 q.den + 1) := by
      rw [natLog2_eq_log]; exact Nat.lt_pow_succ_log_self (by norm_num) _
    have hden : (0 : ℚ) < q.den := by exact_mod_cast q.den_pos
    have habs : |q| = (q.num.natAbs : ℚ) / q.den := by
      conv_lhs => rw [← Rat.num_div_den q]
      rw [abs_div, abs_of_pos hden, Nat.cast_natAbs, Int.cast_abs]
    have h1' : (2 : ℚ) ^ natLog2 q.num.natAbs ≤ q.num.natAbs := by exact_mod_cast h1
    have h2' : (q.den : ℚ) ≤ 2 ^ (natLog2 q.den + 1) := by exact_mod_cast h2.le
    have e : (2 : ℚ) ^ ((natLog2 q.num.natAbs : ℤ) - natLog2 q.den - 1)
        = 2 ^ natLog2 q.num.natAbs / 2 ^ (natLog2 q.den + 1) := by
      rw [show (natLog2 q.num.natAbs : ℤ) - natLog2 q.den - 1
          = (natLog2 q.num.natAbs : ℤ) - ((natLog2 q.den + 1 : ℕ) : ℤ) by push_cast; ring,
        zpow_sub₀ (by norm_num : (2 : ℚ) ≠ 0), zpow_natCast, zpow_natCast]
    rw [e, habs]
    exact div_le_div₀ (by positivity) h1' hden h2'

theorem round64_of_scaled_int {q : ℚ} (k : ℤ)
    (hk : |q| / 2 ^ (floorLog2 q - 52) = (k : ℚ)) : round64 q = q := by
  by_cases hq : q = 0
  · simp [round64, hq]
  · have h2 : (2 : ℚ) ^ (floorLog2 q - 52) ≠ 0 := zpow_ne_zero _ (by norm_num)
    have habs : (k : ℚ) * 2 ^ (floorLog2 q - 52) = |q| := by
      rw [← hk, div_mul_cancel₀ _ h2]
    rw [round64, if_neg hq, hk, roundHalfEven_intCast, mul_assoc, habs]
    by_cases hneg : q < 0
    · rw [if_pos hneg, abs_of_neg hneg]; ring
    · rw [if_neg hneg, abs_of_nonneg (not_lt.1 hneg)]; ring

theorem round64_dyadic (m : ℤ) (j : ℕ) (hm : |m| < 2 ^ 53) :
    round64 ((m : ℚ) / 2 ^ j) = (m : ℚ) / 2 ^ j := by
  by_cases hm0 : m = 0
  · simp [hm0, round64]
  have hpow : (0 : ℚ) < 2 ^ j := by positivity
  have habs : |(m : ℚ) / 2 ^ j| = (|m| : ℤ) / 2 ^ j := by
    rw [abs_div, abs_of_pos hpow, Int.cast_abs]
  have hne : (m : ℚ) / 2 ^ j ≠ 0 := div_ne_zero (by exact_mod_cast hm0) hpow.ne'
  have hlog := zpow_floorLog2_le hne
  have hlt : |(m : ℚ) / 2 ^ j| < (2 : ℚ) ^ ((53 : ℤ) - j) := by
    rw [habs, zpow_sub₀ (by norm_num : (2 : ℚ) ≠ 0), zpow_natCast]
    apply div_lt_div_of_pos_right _ hpow
    have : ((|m| : ℤ) : ℚ) < ((2 ^ 53 : ℤ) : ℚ) := by exact_mod_cast hm
    rw [Int.cast_pow, Int.cast_ofNat] at this
    rw [zpow_ofNat]
    exact this
  have hL : floorLog2 ((m : ℚ) / 2 ^ j) < 53 - j :=
    (zpow_lt_zpow_iff_right₀ (by norm_num : (1 : ℚ) < 2)).1 (lt_of_le_of_lt hlog hlt)
  obtain ⟨t, ht⟩ : ∃ t : ℕ, (t : ℤ) = 52 - floorLog2 ((m : ℚ) / 2 ^ j) - j :=
    ⟨(52 - floorLog2 ((m : ℚ) / 2 ^ j) - j).toNat, Int.toNat_of_nonneg (by omega)⟩
  apply round64_of_scaled_int (|m| * 2 ^ t)
  have he : floorLog2 ((m : ℚ) / 2 ^ j) - 52 = -((t : ℤ) + j) := by omega
  rw [he, habs, zpow_neg, zpow_add₀ (by norm_num : (2 : ℚ) ≠ 0), zpow_natCast, zpow_natCast]
  push_cast
  field_simp
  ring

theorem round64_intCast (m : ℤ) (hm : |m| < 2 ^ 53) : round64 (m : ℚ) = m := by
  simpa using round64_dyadic m 0 hm

theorem IntBounded.cast_num {b : ℕ} {q : ℚ} (h : IntBounded b q) : (q.num : ℚ) = q :=
  (Rat.den_eq_one_iff q).1 h.1

theorem intBounded_intCast {b : ℕ} (m : ℤ) (h : m.natAbs ≤ b) : IntBounded b (m : ℚ) :=
  ⟨Rat.intCast_den m, by rw [Rat.intCast_num]; exact h⟩

theorem IntBounded.mono {a b : ℕ} {q : ℚ} (h : IntBounded a q) (hab : a ≤ b) :
    IntBounded b q :=
  ⟨h.1, Nat.le_trans h.2 hab⟩

theorem IntBounded.add {a b : ℕ} {x y : ℚ} (hx : IntBounded a x) (hy : IntBounded b y) :
    IntBounded (a + b) (x + y) := by
  rw [← hx.cast_num, ← hy.cast_num, ← Int.cast_add]
  exact intBounded_intCast _ (Nat.le_trans (Int.natAbs_add_le _ _) (Nat.add_le_add hx.2 hy.2))

theorem IntBounded.sub {a b : ℕ} {x y : ℚ} (hx : IntBounded a x) (hy : IntBounded b y) :
    IntBounded (a + b) (x - y) := by
  rw [← hx.cast_num, ← hy.cast_num, ← Int.cast_sub]
  exact intBounded_intCast _ (Nat.le_trans (Int.natAbs_sub_le _ _) (Nat.add_le_add hx.2 hy.2))

theorem IntBounded.mul {a b : ℕ} {x y : ℚ} (hx : IntBounded a x) (hy : IntBounded b y) :
    IntBounded (a * b) (x * y) := by
  rw [← hx.cast_num, ← hy.cast_num, ← Int.cast_mul]
  exact intBounded_intCast _ (by rw [Int.natAbs_mul]; exact Nat.mul_le_mul hx.2 hy.2)

theorem intBounded_zero (b : ℕ) : IntBounded b 0 := ⟨rfl, Nat.zero_le _⟩

theorem round64_half_of_intBounded {b : ℕ} {q : ℚ} (h : IntBounded b q) (hb : b < 2 ^ 53)
    (j : ℕ) : round64 (q / 2 ^ j) = q / 2 ^ j := by
  rw [← h.cast_num]
  apply round64_dyadic
  have : (q.num.natAbs : ℤ) < 2 ^ 53 := by exact_mod_cast Nat.lt_of_le_of_lt h.2 hb
  rwa [Int.natCast_natAbs] at this

theorem round64_of_intBounded {b : ℕ} {q : ℚ} (h : IntBounded b q) (hb : b < 2 ^ 53) :
    round64 q = q := by
  have := round64_half_of_intBounded h hb 0
  simpa using this

theorem fadd_exact {a b : ℕ} {x y : ℚ} (hx : IntBounded a x) (hy : IntBounded b y)
    (h : a + b < 2 ^ 53) : fadd x y = x + y :=
  round64_of_intBounded (hx.add hy) h

theorem fsub_exact {a b : ℕ} {x y : ℚ} (hx : IntBounded a x) (hy : IntBounded b y)
    (h : a + b < 2 ^ 53) : fsub x y = x - y :=
  round64_of_intBounded (hx.sub hy) h

theorem fmul_exact {a b : ℕ} {x y : ℚ} (hx : IntBounded a x) (hy : IntBounded b y)
    (h : a * b < 2 ^ 53) : fmul x y = x * y :=
  round64_of_intBounded (hx.mul hy) h

theorem nth_bounded {b : ℕ} {points : List (Vec3 ℚ)} (h : PointsBounded b points) (i : ℕ) :
    IntBounded b (nth points i).x ∧ IntBounded b (nth points i).z := by
  by_cases hi : i < points.length
  · exact h _ (nth_mem hi)
  · rw [nth, List.getD_eq_default _ _ (not_lt.1 hi)]
    exact ⟨intBounded_zero b, intBounded_zero b⟩

theorem crossTerm64_exact {b : ℕ} {points : List (Vec3 ℚ)} (h : PointsBounded b points)
    (hb : b * b + b * b < 2 ^ 53) (i : ℕ) :
    crossTerm64 points i = crossTerm points i ∧
      IntBounded (b * b + b * b) (crossTerm points i) := by
  have hi := nth_bounded h i
  have hj := nth_bounded h ((i + 1) % points.length)
  have hbb : b * b < 2 ^ 53 := by omega
  rw [crossTerm64, crossTerm, fmul_exact hi.1 hj.2 hbb, fmul_exact hj.1 hi.2 hbb,
    fsub_exact (hi.1.mul hj.2) (hj.1.mul hi.2) hb]
  exact ⟨rfl, (hi.1.mul hj.2).sub (hj.1.mul hi.2)⟩

theorem area_fold_exact {b : ℕ} {points : List (Vec3 ℚ)} (h : PointsBounded b points)
    (indices : List ℕ) :
    ∀ (k : ℕ) (acc : ℚ), IntBounded (k * (b * b + b * b)) acc →
      (k + indices.length) * (b * b + b * b) < 2 ^ 53 →
      indices.foldl (fun area i => fadd area (crossTerm64 points i)) acc
          = indices.foldl (fun area i => area + crossTerm points i) acc ∧
        IntBounded ((k + indices.length) * (b * b + b * b))
          (indices.foldl (fun area i => area + crossTerm points i) acc) := by
  induction indices with
  | nil => intro k acc hacc _; exact ⟨rfl, by simpa using hacc⟩
  | cons i is ih =>
    intro k acc hacc hk
    simp only [List.length_cons] at hk
    have hc : b * b + b * b < 2 ^ 53 := by
      have : 1 * (b * b + b * b) ≤ (k + (is.length + 1)) * (b * b + b * b) :=
        Nat.mul_le_mul_right _ (by omega)
      omega
    obtain ⟨e1, e2⟩ := crossTerm64_exact h hc i
    have hsum : k * (b * b + b * b) + (b * b + b * b) = (k + 1) * (b * b + b * b) := by ring
    have hstep : fadd acc (crossTerm64 points i) = acc + crossTerm points i := by
      rw [e1]
      apply fadd_exact hacc e2
      rw [hsum]
      have : (k + 1) * (b * b + b * b) ≤ (k + (is.length + 1)) * (b * b + b * b) :=
        Nat.mul_le_mul_right _ (by omega)
      omega
    have hacc' : IntBounded ((k + 1) * (b * b + b * b)) (acc + crossTerm points i) := by
      rw [← hsum]; exact hacc.add e2
    simp only [List.foldl_cons, hstep, List.length_cons]
    have := ih (k + 1) _ hacc' (by rw [show k + 1 + is.length = k + (is.length + 1) by omega]; exact hk)
    rw [show k + 1 + is.length = k + (is.length + 1) by omega] at this
    exact this

theorem calculatePolygonArea64_exact {b : ℕ} {points : List (Vec3 ℚ)}
    (h : PointsBounded b points) (hb : points.length * (b * b + b * b) < 2 ^ 53) :
    calculatePolygonArea64 points = calculatePolygonArea points := by
  obtain ⟨e1, e2⟩ := area_fold_exact h (List.range points.length) 0 0
    (by simpa using intBounded_zero 0) (by simpa using hb)
  rw [calculatePolygonArea64, calculatePolygonArea, e1, fdiv]
  simp only [Nat.zero_add, List.length_range] at e2
  have habs : IntBounded (points.length * (b * b + b * b))
      |(List.range points.length).foldl (fun area i => area + crossTerm points i) 0| := by
    rcases abs_choice ((List.range points.length).foldl
      (fun area i => area + crossTerm points i) 0) with h' | h'
    · rw [h']; exact e2
    · rw [h']
      have := (intBounded_zero 0).sub e2
      simpa using this
  have := round64_half_of_intBounded habs hb 1
  simpa using this

theorem centroidSums64_fst (points : List (Vec3 ℚ)) :
    (centroidSums64 points).1
      = (List.range points.length).foldl (fun area i => fadd area (crossTerm64 points i)) 0 := by
  rw [centroidSums64]
  generalize List.range points.length = is
  have key : ∀ (acc : ℚ × ℚ × ℚ) (a : ℚ), acc.1 = a →
      (is.foldl (fun acc i =>
        (fadd acc.1 (crossTerm64 points i),
         fadd acc.2.1 (fmul (fadd (nth points i).x (nth points ((i + 1) % points.length)).x)
            (crossTerm64 points i)),
         fadd acc.2.2 (fmul (fadd (nth points i).z (nth points ((i + 1) % points.length)).z)
            (crossTerm64 points i)))) acc).1
        = is.foldl (fun area i => fadd area (crossTerm64 points i)) a := by
    induction is with
    | nil => intro acc a h; exact h
    | cons i is ih =>
      intro acc a h
      simp only [List.foldl_cons]
      exact ih _ _ (by rw [h])
  exact key _ _ rfl

theorem centroid_fold_exact {b : ℕ} {points : List (Vec3 ℚ)} (h : PointsBounded b points)
    (indices : List ℕ) :
    ∀ (k : ℕ) (acc : ℚ × ℚ × ℚ), IntBounded (k * (b * b + b * b)) acc.1 →
      IntBounded (k * ((b + b) * (b * b + b * b))) acc.2.1 →
      IntBounded (k * ((b + b) * (b * b + b * b))) acc.2.2 →
      (k + indices.length) * (b * b + b * b) < 2 ^ 53 →
      (k + indices.length) * ((b + b) * (b * b + b * b)) < 2 ^ 53 →
      indices.foldl (fun acc i =>
        (fadd acc.1 (crossTerm64 points i),
         fadd acc.2.1 (fmul (fadd (nth points i).x (nth points ((i + 1) % points.length)).x)
            (crossTerm64 points i)),
         fadd acc.2.2 (fmul (fadd (nth points i).z (nth points ((i + 1) % points.length)).z)
            (crossTerm64 points i)))) acc
        = indices.foldl (fun acc i =>
          (acc.1 + crossTerm points i,
           acc.2.1 + ((nth points i).x + (nth points ((i + 1) % points.length)).x)
              * crossTerm points i,
           acc.2.2 + ((nth points i).z + (nth points ((i + 1) % points.length)).z)
              * crossTerm points i)) acc := by
  induction indices with
  | nil => intro k acc _ _ _ _ _; rfl
  | cons i is ih =>
    intro k acc h1 h2 h3 hk1 hk2
    simp only [List.length_cons] at hk1 hk2
    have hle : ∀ c : ℕ, (k + 1) * c ≤ (k + (is.length + 1)) * c :=
      fun c => Nat.mul_le_mul_right _ (by omega)
    have hc1 : (k + 1) * (b * b + b * b) < 2 ^ 53 := Nat.lt_of_le_of_lt (hle _) hk1
    have hc2 : (k + 1) * ((b + b) * (b * b + b * b)) < 2 ^ 53 := Nat.lt_of_le_of_lt (hle _) hk2
    have hC1 : b * b + b * b < 2 ^ 53 :=
      Nat.lt_of_le_of_lt (Nat.le_mul_of_pos_left _ (Nat.succ_pos k)) hc1
    have hC2 : (b + b) * (b * b + b * b) < 2 ^ 53 :=
      Nat.lt_of_le_of_lt (Nat.le_mul_of_pos_left _ (Nat.succ_pos k)) hc2
    obtain ⟨e1, e2⟩ := crossTerm64_exact h hC1 i
    have hi := nth_bounded h i
    have hj := nth_bounded h ((i + 1) % points.length)
    have hbb : b + b < 2 ^ 53 := by
      rcases Nat.eq_zero_or_pos b with hb0 | hbpos
      · rw [hb0]; norm_num
      · have : (b + b) * 1 ≤ (b + b) * (b * b + b * b) :=
          Nat.mul_le_mul_left _ (Nat.succ_le_of_lt (Nat.add_pos_left (Nat.mul_pos hbpos hbpos) _))
        omega
    have s1 : ∀ c : ℕ, k * c + c = (k + 1) * c := fun c => by ring
    have ex : fadd (nth points i).x (nth points ((i + 1) % points.length)).x
        = (nth points i).x + (nth points ((i + 1) % points.length)).x :=
      fadd_exact hi.1 hj.1 hbb
    have ez : fadd (nth points i).z (nth points ((i + 1) % points.length)).z
        = (nth points i).z + (nth points ((i + 1) % points.length)).z :=
      fadd_exact hi.2 hj.2 hbb
    have mx := fmul_exact (hi.1.add hj.1) e2 hC2
    have mz := fmul_exact (hi.2.add hj.2) e2 hC2
    have a1 : fadd acc.1 (crossTerm points i) = acc.1 + crossTerm points i :=
      fadd_exact h1 e2 (by rw [s1]; exact hc1)
    have a2 := fadd_exact h2 ((hi.1.add hj.1).mul e2) (by rw [s1]; exact hc2)
    have a3 := fadd_exact h3 ((hi.2.add hj.2).mul e2) (by rw [s1]; exact hc2)
    simp only [List.foldl_cons, e1, ex, ez, mx, mz, a1, a2, a3]
    refine ih (k + 1) _ ?_ ?_ ?_ ?_ ?_
    · rw [← s1]; exact h1.add e2
    · rw [← s1]; exact h2.add ((hi.1.add hj.1).mul e2)
    · rw [← s1]; exact h3.add ((hi.2.add hj.2).mul e2)
    · rw [show k + 1 + is.length = k + (is.length + 1) by omega]; exact hk1
    · rw [show k + 1 + is.length = k + (is.length + 1) by omega]; exact hk2

theorem centroidSums64_exact {b : ℕ} {points : List (Vec3 ℚ)} (h : PointsBounded b points)
    (h1 : points.length * (b * b + b * b) < 2 ^ 53)
    (h2 : points.length * ((b + b) * (b * b + b * b)) < 2 ^ 53) :
    centroidSums64 points = centroidSums points := by
  have := centroid_fold_exact h (List.range points.length) 0 (0, 0, 0)
    (by simpa using intBounded_zero 0) (by simpa using intBounded_zero 0)
    (by simpa using intBounded_zero 0) (by simpa using h1) (by simpa using h2)
  exact this

theorem pointsBounded_rotate {b : ℕ} {points : List (Vec3 ℚ)} (h : PointsBounded b points)
    (k : ℕ) : PointsBounded b (points.rotate k) :=
  fun p hp => h p (List.mem_rotate.1 hp)

theorem pointsBounded_reverse {b : ℕ} {points : List (Vec3 ℚ)} (h : PointsBounded b points) :
    PointsBounded b points.reverse :=
  fun p hp => h p (List.mem_reverse.1 hp)

theorem crossTerm64_of_coincident {points : List (Vec3 ℚ)}
    (h : ∀ p ∈ points, ∀ q ∈ points, p.x = q.x ∧ p.z = q.z) {i : ℕ} (hi : i < points.length) :
    crossTerm64 points i = 0 := by
  have hj : (i + 1) % points.length < points.length := Nat.mod_lt _ (by omega)
  obtain ⟨hx, hz⟩ := h _ (nth_mem hi) _ (nth_mem hj)
  rw [crossTerm64, hx, hz, fsub, sub_self]
  simp [round64]

theorem area_fold_of_coincident {points : List (Vec3 ℚ)}
    (h : ∀ p ∈ points, ∀ q ∈ points, p.x = q.x ∧ p.z = q.z) :
    (List.range points.length).foldl (fun area i => fadd area (crossTerm64 points i)) 0 = 0 := by
  have key : ∀ indices : List ℕ, (∀ i ∈ indices, i < points.length) →
      indices.foldl (fun area i => fadd area (crossTerm64 points i)) 0 = 0 := by
    intro indices
    induction indices with
    | nil => intro _; rfl
    | cons i is ih =>
      intro hall
      have h0 : fadd 0 (crossTerm64 points i) = 0 := by
        rw [crossTerm64_of_coincident h (hall i (List.mem_cons_self _ _))]
        simp [fadd, round64]
      rw [List.foldl_cons, h0]
      exact ih (fun j hj => hall j (List.mem_cons_of_mem _ hj))
  exact key _ (fun i hi => List.mem_range.1 hi)

theorem rectangle64_intCast (x0 x1 z0 z1 y0 y1 y2 y3 : ℤ) (hx : x0 < x1) (hz : z0 < z1)
    (hb : ∀ c ∈ [x0, x1, z0, z1, y0, y1, y2, y3], |c| ≤ 2 ^ 16) :
    calculatePolygonArea64 [⟨x0, y0, z0⟩, ⟨x1, y1, z0⟩, ⟨x1, y2, z1⟩, ⟨x0, y3, z1⟩]
      = ((x1 : ℚ) - x0) * (z1 - z0) ∧
    centroidPoint64 [⟨x0, y0, z0⟩, ⟨x1, y1, z0⟩, ⟨x1, y2, z1⟩, ⟨x0, y3, z1⟩]
      = ⟨((x0 : ℚ) + x1) / 2, ((y0 : ℚ) + y1 + y2 + y3) / 4, ((z0 : ℚ) + z1) / 2⟩ := by
  have hx0 := hb x0 (by simp)
  have hx1 := hb x1 (by simp)
  have hz0 := hb z0 (by simp)
  have hz1 := hb z1 (by simp)
  have hy0 := hb y0 (by simp)
  have hy1 := hb y1 (by simp)
  have hy2 := hb y2 (by simp)
  have hy3 := hb y3 (by simp)
  rw [abs_le] at hx0 hx1 hz0 hz1 hy0 hy1 hy2 hy3
  have hib : ∀ c : ℤ, -2 ^ 16 ≤ c ∧ c ≤ 2 ^ 16 → IntBounded (2 ^ 16) (c : ℚ) :=
    fun c hc => intBounded_intCast c (by omega)
  have hP : PointsBounded (2 ^ 16)
      [(⟨x0, y0, z0⟩ : Vec3 ℚ), ⟨x1, y1, z0⟩, ⟨x1, y2, z1⟩, ⟨x0, y3, z1⟩] := by
    intro p hp
    simp only [List.mem_cons, List.mem_singleton, List.not_mem_nil, or_false] at hp
    rcases hp with rfl | rfl | rfl | rfl <;> exact ⟨hib _ ‹_›, hib _ ‹_›⟩
  have hxq : (x0 : ℚ) < x1 := by exact_mod_cast hx
  have hzq : (z0 : ℚ) < z1 := by exact_mod_cast hz
  have hA1 : 0 < (x1 - x0) * (z1 - z0) := mul_pos (by omega) (by omega)
  have hA2 : (x1 - x0) * (z1 - z0) ≤ 2 ^ 17 * 2 ^ 17 :=
    Int.mul_le_mul (by omega) (by omega) (by omega) (by norm_num)
  have hAq : (((x1 - x0) * (z1 - z0) : ℤ) : ℚ) ≠ 0 := by exact_mod_cast hA1.ne'
  constructor
  · rw [calculatePolygonArea64_exact hP (by norm_num),
      (rectangle_exact (x0 : ℚ) x1 z0 z1 y0 y1 y2 y3 hxq hzq).1]
  · have hS := centroidSums64_exact hP (by norm_num) (by norm_num)
    simp only [centroidPoint64, hS, centroidSums_rectangle, Vec3.mk.injEq, fdiv, fmul, fadd,
      List.foldl_cons, List.foldl_nil, List.length_cons, List.length_nil]
    have e1 : (2 : ℚ) * (((x1 : ℚ) - x0) * (z1 - z0)) / 2 = (((x1 - x0) * (z1 - z0) : ℤ) : ℚ) := by
      push_cast; ring
    have e2 : (6 : ℚ) * (((x1 - x0) * (z1 - z0) : ℤ) : ℚ)
        = ((6 * ((x1 - x0) * (z1 - z0)) : ℤ) : ℚ) := by push_cast; ring
    rw [e1, round64_intCast _ (by rw [abs_of_pos hA1]; omega), e2,
      round64_intCast _ (by rw [abs_of_pos (by omega)]; omega)]
    refine ⟨?_, ?_, ?_⟩
    · have e3 : (3 : ℚ) * (x0 + x1) * (((x1 : ℚ) - x0) * (z1 - z0))
          / ((6 * ((x1 - x0) * (z1 - z0)) : ℤ) : ℚ) = ((x0 + x1 : ℤ) : ℚ) / 2 ^ 1 := by
        push_cast at hAq ⊢
        field_simp
        ring
      rw [e3, round64_dyadic _ 1 (by rw [abs_lt]; constructor <;> omega)]
      push_cast; ring
    · have a0 : round64 ((0 : ℚ) + y0) = ((y0 : ℤ) : ℚ) := by
        rw [zero_add]; exact round64_intCast _ (by rw [abs_lt]; constructor <;> omega)
      have a1 : round64 (((y0 : ℤ) : ℚ) + y1) = ((y0 + y1 : ℤ) : ℚ) := by
        rw [← Int.cast_add]; exact round64_intCast _ (by rw [abs_lt]; constructor <;> omega)
      have a2 : round64 (((y0 + y1 : ℤ) : ℚ) + y2) = ((y0 + y1 + y2 : ℤ) : ℚ) := by
        rw [← Int.cast_add]; exact round64_intCast _ (by rw [abs_lt]; constructor <;> omega)
      have a3 : round64 (((y0 + y1 + y2 : ℤ) : ℚ) + y3) = ((y0 + y1 + y2 + y3 : ℤ) : ℚ) := by
        rw [← Int.cast_add]; exact round64_intCast _ (by rw [abs_lt]; constructor <;> omega)
      have e4 : (((y0 + y1 + y2 + y3 : ℤ) : ℚ)) / ((0 + 1 + 1 + 1 + 1 : ℕ) : ℚ)
          = ((y0 + y1 + y2 + y3 : ℤ) : ℚ) / 2 ^ 2 := by norm_num
      rw [a0, a1, a2, a3, e4, round64_dyadic _ 2 (by rw [abs_lt]; constructor <;> omega)]
      push_cast; ring
    · have e3 : (3 : ℚ) * (z0 + z1) * (((x1 : ℚ) - x0) * (z1 - z0))
          / ((6 * ((x1 - x0) * (z1 - z0)) : ℤ) : ℚ) = ((z0 + z1 : ℤ) : ℚ) / 2 ^ 1 := by
        push_cast at hAq ⊢
        field_simp
        ring
      rw [e3, round64_dyadic _ 1 (by rw [abs_lt]; constructor <;> omega)]
      push_cast; ring

end RoundingLemmas

/-! ## The claims -/

section Claims

variable {R : Type} [LinearOrderedField R]

/-- C1. For every state of the viewer (the children of its scene being pairwise distinct,
as three.js keeps them), after `cancelMeasurement` the measurement mode is `'none'`,
`selectedPoints` and `polygonPoints` are empty, `firstPointMarker` and `dynamicLine` are
null, `pointMarkers` and `polygonLines` are empty, and no marker, polygon edge or live line
that was tracked before the call is still in the scene. -/
theorem cancelMeasurement_resets (s : State R) (h : s.scene.Nodup) :
    (cancelMeasurement s).measurementMode = .none ∧
    (cancelMeasurement s).selectedPoints = [] ∧
    (cancelMeasurement s).polygonPoints = [] ∧
    (cancelMeasurement s).firstPointMarker = none ∧
    (cancelMeasurement s).dynamicLine = none ∧
    (cancelMeasurement s).pointMarkers = [] ∧
    (cancelMeasurement s).polygonLines = [] ∧
    (∀ m ∈ s.pointMarkers, SceneObj.marker m ∉ (cancelMeasurement s).scene) ∧
    (∀ l ∈ s.polygonLines, SceneObj.line l ∉ (cancelMeasurement s).scene) ∧
    (∀ d, s.dynamicLine = some d → SceneObj.line d ∉ (cancelMeasurement s).scene) := by
  obtain ⟨f1, f2, f3, f4, f5, f6, f7⟩ := cancelMeasurement_fields s
  refine ⟨f1, f2, f3, f4, f5, f6, f7, ?_, ?_, ?_⟩
  · intro m hm hmem
    rw [cancelMeasurement_scene] at hmem
    have := (clearMeasurement_mem_iff h _).1 (mem_of_mem_removeIf hmem)
    exact this.2.2.2.2.2 (List.mem_map_of_mem _ hm)
  · intro l hl hmem
    rw [cancelMeasurement_scene] at hmem
    have := (clearMeasurement_mem_iff h _).1 (mem_of_mem_removeIf hmem)
    exact this.2.2.2.2.1 (List.mem_map_of_mem _ hl)
  · intro d hd hmem
    rw [cancelMeasurement_scene] at hmem
    have := (clearMeasurement_mem_iff h _).1 (mem_of_mem_removeIf hmem)
    exact this.2.2.2.1 (by rw [hd]; rfl)

/-- C1, witness: a run with a committed marker and a live line. -/
theorem cancelMeasurement_resets_witness :
    (run ratHost (initialState ℚ)
        [.setDistance, .click (some ⟨0, 0, 0⟩), .move (some ⟨1, 0, 0⟩)]).scene.Nodup ∧
    SceneObj.marker ⟨3, ⟨0, 0, 0⟩⟩ ∉
      (cancelMeasurement (run ratHost (initialState ℚ)
        [.setDistance, .click (some ⟨0, 0, 0⟩), .move (some ⟨1, 0, 0⟩)])).scene :=
  ⟨by decide!,
   (cancelMeasurement_resets _ (by decide!)).2.2.2.2.2.2.2.1 ⟨3, ⟨0, 0, 0⟩⟩ (by decide!)⟩

/-- C2, counterexample. After `setDistanceMeasure`, two clicks that complete a distance
measurement and a third click that starts the next one, the completed label (id 6) and
line (id 5) are in the scene and a measurement is in progress; `cancelMeasurement` removes
both from the scene. -/
theorem cancelMeasurement_removes_last_label :
    Reachable ratHost (run ratHost (initialState ℚ)
      [.setDistance, .click (some ⟨0, 0, 0⟩), .click (some ⟨1, 0, 0⟩), .click (some ⟨2, 0, 0⟩)]) ∧
    SceneObj.sprite ⟨6, 100, .cm, ⟨1 / 2, 0, 0⟩⟩ ∈ (run ratHost (initialState ℚ)
      [.setDistance, .click (some ⟨0, 0, 0⟩), .click (some ⟨1, 0, 0⟩), .click (some ⟨2, 0, 0⟩)]).scene ∧
    SceneObj.line ⟨5, [⟨0, 0, 0⟩, ⟨1, 0, 0⟩]⟩ ∈ (run ratHost (initialState ℚ)
      [.setDistance, .click (some ⟨0, 0, 0⟩), .click (some ⟨1, 0, 0⟩), .click (some ⟨2, 0, 0⟩)]).scene ∧
    (run ratHost (initialState ℚ)
      [.setDistance, .click (some ⟨0, 0, 0⟩), .click (some ⟨1, 0, 0⟩), .click (some ⟨2, 0, 0⟩)]).selectedPoints
        = [⟨2, 0, 0⟩] ∧
    SceneObj.sprite ⟨6, 100, .cm, ⟨1 / 2, 0, 0⟩⟩ ∉ (cancelMeasurement (run ratHost (initialState ℚ)
      [.setDistance, .click (some ⟨0, 0, 0⟩), .click (some ⟨1, 0, 0⟩), .click (some ⟨2, 0, 0⟩)])).scene ∧
    SceneObj.line ⟨5, [⟨0, 0, 0⟩, ⟨1, 0, 0⟩]⟩ ∉ (cancelMeasurement (run ratHost (initialState ℚ)
      [.setDistance, .click (some ⟨0, 0, 0⟩), .click (some ⟨1, 0, 0⟩), .click (some ⟨2, 0, 0⟩)])).scene :=
  ⟨⟨_, rfl⟩, by decide!, by decide!, by decide!, by decide!, by decide!⟩

/-- C2, amended. In every reachable state `s` (reached by the events `events₁` followed by
`events₂`), `cancelMeasurement` keeps every label of the scene other than the one
referenced by `measurementText`, and every line of the scene that `measurementLine`
referenced at an earlier point of the run (the line of a distance or angle measurement
completed earlier) and no longer references; the label referenced by `measurementText` and
the line referenced by `measurementLine` (the most recently completed measurement) are
removed from the scene. -/
theorem cancelMeasurement_keeps_earlier_measurements (H : Host R)
    (events₁ events₂ : List (Event R)) (s : State R)
    (hs : run H (initialState R) (events₁ ++ events₂) = s) :
    (∀ t, SceneObj.sprite t ∈ s.scene → s.measurementText ≠ some t →
      SceneObj.sprite t ∈ (cancelMeasurement s).scene) ∧
    (∀ l, (run H (initialState R) events₁).measurementLine = some l →
      SceneObj.line l ∈ s.scene → s.measurementLine ≠ some l →
      SceneObj.line l ∈ (cancelMeasurement s).scene) ∧
    (∀ t, s.measurementText = some t → SceneObj.sprite t ∉ (cancelMeasurement s).scene) ∧
    (∀ l, s.measurementLine = some l → SceneObj.line l ∉ (cancelMeasurement s).scene) := by
  have hr : Reachable H s := ⟨_, hs⟩
  obtain ⟨k1, k2, k3⟩ := cancelMeasurement_mem_of_untracked s
  obtain ⟨k4, k5⟩ := k3 hr.inv.sceneOK.1
  refine ⟨k1, ?_, k4, k5⟩
  intro l hl hmem hne
  obtain ⟨g1, g2⟩ := lines_run H events₁ (lineIdsOK_initialState (R := R)).1
    (lineIdsOK_initialState (R := R)).2
  have ha : Apart l s := by
    rw [← hs, run, List.foldl_append]
    exact apart_run H events₂ l g1 g2 (g2 l hl)
  refine k2 l hmem hne ?_ ?_
  · intro hd
    exact ha.2.1 l hd rfl
  · intro hp
    exact ha.2.2 l hp rfl

/-- C2 amended, witness: of two completed distance measurements, the cancel that
interrupts a third one keeps the line and the label of the first and removes the label of
the second; of two closed polygons, the cancel that interrupts a third one keeps the label
of the first. -/
theorem cancelMeasurement_keeps_earlier_measurements_witness :
    SceneObj.line ⟨5, [⟨0, 0, 0⟩, ⟨1, 0, 0⟩]⟩ ∈ (cancelMeasurement (run ratHost (initialState ℚ)
      ([.setDistance, .click (some ⟨0, 0, 0⟩), .click (some ⟨1, 0, 0⟩)] ++
       [.click (some ⟨0, 0, 0⟩), .click (some ⟨0, 0, 2⟩), .click (some ⟨5, 0, 0⟩)]))).scene ∧
    SceneObj.sprite ⟨6, 100, .cm, ⟨1 / 2, 0, 0⟩⟩ ∈ (cancelMeasurement (run ratHost (initialState ℚ)
      ([.setDistance, .click (some ⟨0, 0, 0⟩), .click (some ⟨1, 0, 0⟩)] ++
       [.click (some ⟨0, 0, 0⟩), .click (some ⟨0, 0, 2⟩), .click (some ⟨5, 0, 0⟩)]))).scene ∧
    SceneObj.sprite ⟨10, 200, .cm, ⟨0, 0, 1⟩⟩ ∉ (cancelMeasurement (run ratHost (initialState ℚ)
      ([.setDistance, .click (some ⟨0, 0, 0⟩), .click (some ⟨1, 0, 0⟩)] ++
       [.click (some ⟨0, 0, 0⟩), .click (some ⟨0, 0, 2⟩), .click (some ⟨5, 0, 0⟩)]))).scene ∧
    SceneObj.sprite ⟨9, 60000, .cm2, ⟨4 / 3, 0, 1⟩⟩ ∈ (cancelMeasurement (run ratHost (initialState ℚ)
      ([] ++ [.setArea, .click (some ⟨0, 0, 0⟩), .click (some ⟨4, 0, 0⟩), .click (some ⟨0, 0, 3⟩),
        .click (some ⟨0, 0, 0⟩), .click (some ⟨0, 0, 0⟩), .click (some ⟨4, 0, 0⟩),
        .click (some ⟨0, 0, 3⟩), .click (some ⟨0, 0, 0⟩), .click (some ⟨7, 0, 7⟩)]))).scene :=
  ⟨(cancelMeasurement_keeps_earlier_measurements ratHost _ _ _ rfl).2.1 _ (by decide!)
      (by decide!) (by decide!),
   (cancelMeasurement_keeps_earlier_measurements ratHost _ _ _ rfl).1 _ (by decide!) (by decide!),
   (cancelMeasurement_keeps_earlier_measurements ratHost _ _ _ rfl).2.2.1 _ (by decide!),
   (cancelMeasurement_keeps_earlier_measurements ratHost _ _ _ rfl).1 _ (by decide!) (by decide!)⟩

/-- C3, the code at the failing input. With one polygon edge committed (line 5 in
`polygonLines` and in the scene), `setAreaMeasure` empties `polygonLines` before
`clearMeasurement` runs, so the edge stays in the scene; `setDistanceMeasure` from the same
state removes it. -/
theorem setAreaMeasure_leaves_polygon_edge :
    (run ratHost (initialState ℚ)
      [.setArea, .click (some ⟨0, 0, 0⟩), .click (some ⟨1, 0, 0⟩)]).polygonLines
        = [⟨5, [⟨0, 0, 0⟩, ⟨1, 0, 0⟩]⟩] ∧
    SceneObj.line ⟨5, [⟨0, 0, 0⟩, ⟨1, 0, 0⟩]⟩ ∈ (setAreaMeasure (run ratHost (initialState ℚ)
      [.setArea, .click (some ⟨0, 0, 0⟩), .click (some ⟨1, 0, 0⟩)])).scene ∧
    (setAreaMeasure (run ratHost (initialState ℚ)
      [.setArea, .click (some ⟨0, 0, 0⟩), .click (some ⟨1, 0, 0⟩)])).polygonLines = [] ∧
    SceneObj.line ⟨5, [⟨0, 0, 0⟩, ⟨1, 0, 0⟩]⟩ ∉ (setDistanceMeasure (run ratHost (initialState ℚ)
      [.setArea, .click (some ⟨0, 0, 0⟩), .click (some ⟨1, 0, 0⟩)])).scene :=
  ⟨by decide!, by decide!, by decide!, by decide!⟩

/-- C4, counterexample. With one distance point committed, `setOrbitMode` leaves
`selectedPoints` non-empty and the marker in the scene; with one polygon vertex committed,
`setPanMode` and `setZoomMode` leave `polygonPoints` non-empty. -/
theorem setOrbitMode_keeps_measurement :
    (setOrbitMode (run ratHost (initialState ℚ)
      [.setDistance, .click (some ⟨0, 0, 0⟩)])).selectedPoints = [⟨0, 0, 0⟩] ∧
    SceneObj.marker ⟨3, ⟨0, 0, 0⟩⟩ ∈ (setOrbitMode (run ratHost (initialState ℚ)
      [.setDistance, .click (some ⟨0, 0, 0⟩)])).scene ∧
    (setPanMode (run ratHost (initialState ℚ)
      [.setArea, .click (some ⟨0, 0, 0⟩)])).polygonPoints = [⟨0, 0, 0⟩] ∧
    (setZoomMode (run ratHost (initialState ℚ)
      [.setArea, .click (some ⟨0, 0, 0⟩)])).polygonPoints = [⟨0, 0, 0⟩] :=
  ⟨by decide!, by decide!, by decide!, by decide!⟩

omit [LinearOrderedField R] in
/-- C4, amended. Each of `setOrbitMode`, `setPanMode` and `setZoomMode` sets `currentMode`
to its mode and `measurementMode` to `'none'`, and leaves the accumulators
(`selectedPoints`, `polygonPoints`), every tracked marker, edge, line and label, and the
children of the scene unchanged. -/
theorem camera_setters_frame (s : State R) :
    (∀ f ∈ [setOrbitMode, setPanMode, setZoomMode],
      (f s).measurementMode = .none ∧ (f s).scene = s.scene ∧
      (f s).selectedPoints = s.selectedPoints ∧ (f s).polygonPoints = s.polygonPoints ∧
      (f s).pointMarkers = s.pointMarkers ∧ (f s).polygonLines = s.polygonLines ∧
      (f s).dynamicLine = s.dynamicLine ∧ (f s).firstPointMarker = s.firstPointMarker ∧
      (f s).measurementLine = s.measurementLine ∧ (f s).measurementText = s.measurementText) ∧
    (setOrbitMode s).currentMode = .orbit ∧ (setPanMode s).currentMode = .pan ∧
    (setZoomMode s).currentMode = .zoom := by
  refine ⟨?_, rfl, rfl, rfl⟩
  intro f hf
  simp only [List.mem_cons, List.mem_singleton, List.not_mem_nil, or_false] at hf
  rcases hf with rfl | rfl | rfl <;> exact ⟨rfl, rfl, rfl, rfl, rfl, rfl, rfl, rfl, rfl, rfl⟩

/-- C5. In every reachable state a camera mode (`'orbit'`, `'pan'`, `'zoom'`) in
`currentMode` implies `measurementMode = 'none'`; equivalently an active measurement mode
implies `currentMode = 'measure'`; and each camera-mode setter leaves
`measurementMode = 'none'`. -/
theorem camera_mode_excludes_measurement (H : Host R) (s : State R) (h : Reachable H s) :
    ((s.currentMode = .orbit ∨ s.currentMode = .pan ∨ s.currentMode = .zoom) →
      s.measurementMode = .none) ∧
    (s.measurementMode ≠ .none → s.currentMode = .measure) ∧
    (setOrbitMode s).measurementMode = .none ∧ (setPanMode s).measurementMode = .none ∧
    (setZoomMode s).measurementMode = .none := by
  have hm := h.inv.modes
  refine ⟨?_, hm, rfl, rfl, rfl⟩
  intro hc
  by_contra hne
  have := hm hne
  rw [this] at hc
  simp at hc

/-- C5, witness: switching to pan mode in the middle of a distance measurement. -/
theorem camera_mode_excludes_measurement_witness :
    Reachable ratHost (run ratHost (initialState ℚ)
      [.setDistance, .click (some ⟨0, 0, 0⟩), .setPan]) ∧
    (run ratHost (initialState ℚ)
      [.setDistance, .click (some ⟨0, 0, 0⟩), .setPan]).currentMode = .pan ∧
    (run ratHost (initialState ℚ)
      [.setDistance, .click (some ⟨0, 0, 0⟩), .setPan]).measurementMode = .none :=
  ⟨⟨_, rfl⟩, by decide!,
   (camera_mode_excludes_measurement ratHost _ ⟨_, rfl⟩).1 (by decide!)⟩

/-- C6. In distance mode with exactly one committed point `A`, a click that picks `B` adds
exactly one label to the scene: its value is 100 times the Euclidean distance from `A` to
`B` and it is anchored at the midpoint `(A + B) / 2`; the measurement line joins `A` and
`B`; afterwards `selectedPoints` is empty, `dynamicLine` is null and the mode is still
`'distance'`. -/
theorem distance_completion (H : Host R) (s : State R) (A B : Vec3 R)
    (hm : s.measurementMode = .distance) (hs : s.selectedPoints = [A]) :
    labels (onModelClick H s (some B)).scene
      = labels s.scene ++
          [⟨s.nextId + 2,
            100 * H.sqrt ((A.x - B.x) ^ 2 + (A.y - B.y) ^ 2 + (A.z - B.z) ^ 2), .cm,
            ⟨(A.x + B.x) / 2, (A.y + B.y) / 2, (A.z + B.z) / 2⟩⟩] ∧
    (onModelClick H s (some B)).measurementText
      = some ⟨s.nextId + 2,
          100 * H.sqrt ((A.x - B.x) ^ 2 + (A.y - B.y) ^ 2 + (A.z - B.z) ^ 2), .cm,
          ⟨(A.x + B.x) / 2, (A.y + B.y) / 2, (A.z + B.z) / 2⟩⟩ ∧
    (onModelClick H s (some B)).measurementLine = some ⟨s.nextId + 1, [A, B]⟩ ∧
    (onModelClick H s (some B)).selectedPoints = [] ∧
    (onModelClick H s (some B)).dynamicLine = none ∧
    (onModelClick H s (some B)).measurementMode = .distance := by
  have hv : Vec3.distanceTo H A B * 100
      = 100 * H.sqrt ((A.x - B.x) ^ 2 + (A.y - B.y) ^ 2 + (A.z - B.z) ^ 2) := by
    have : A.distanceToSquared B = (A.x - B.x) ^ 2 + (A.y - B.y) ^ 2 + (A.z - B.z) ^ 2 := by
      simp only [Vec3.distanceToSquared, Vec3.lengthSq, Vec3.dot, Vec3.subVectors]; ring
    rw [Vec3.distanceTo, this, mul_comm]
  have hp : (A.addVectors B).multiplyScalar (1 / 2)
      = ⟨(A.x + B.x) / 2, (A.y + B.y) / 2, (A.z + B.z) / 2⟩ := by
    simp only [Vec3.addVectors, Vec3.multiplyScalar, Vec3.mk.injEq]
    refine ⟨by ring, by ring, by ring⟩
  simp only [onModelClick, hm, showDistance, createPointMarker, hs, dropDynamicLine]
  simp only [List.singleton_append, List.length_cons, List.length_nil, nth, List.getD_cons_zero,
    List.getD_cons_succ, hv, hp, reduceCtorEq, if_false, Nat.reduceAdd, if_true]
  cases hd : s.dynamicLine
  · simp only [labels_append, List.append_assoc]
    simp [labels]
  · simp only [labels_erase_line, labels_append, List.append_assoc]
    simp [labels]

/-- C6, witness: `A = (0,0,0)`, `B = (1,0,0)` give the value 100 anchored at `(0.5,0,0)`. -/
theorem distance_completion_witness :
    (run ratHost (initialState ℚ) [.setDistance, .click (some ⟨0, 0, 0⟩)]).measurementMode
      = .distance ∧
    (run ratHost (initialState ℚ) [.setDistance, .click (some ⟨0, 0, 0⟩)]).selectedPoints
      = [⟨0, 0, 0⟩] ∧
    labels (onModelClick ratHost
        (run ratHost (initialState ℚ) [.setDistance, .click (some ⟨0, 0, 0⟩)])
        (some ⟨1, 0, 0⟩)).scene = [⟨6, 100, .cm, ⟨1 / 2, 0, 0⟩⟩] ∧
    (onModelClick ratHost
        (run ratHost (initialState ℚ) [.setDistance, .click (some ⟨0, 0, 0⟩)])
        (some ⟨1, 0, 0⟩)).selectedPoints = [] :=
  ⟨by decide!, by decide!,
   (distance_completion ratHost _ ⟨0, 0, 0⟩ ⟨1, 0, 0⟩ (by decide!) (by decide!)).1.trans
     (by decide!),
   (distance_completion ratHost _ ⟨0, 0, 0⟩ ⟨1, 0, 0⟩ (by decide!) (by decide!)).2.2.2.1⟩

/-- C7. In angle mode with exactly two committed points `V` (the vertex) and `P1`, a click
that picks `P2` adds exactly one label to the scene: its value is the arccosine of the
inner product of `P1 - V` and `P2 - V` divided by the product of their lengths, converted
to degrees (times `180 / π`), and it is anchored at `V`; the measurement line runs
`V, P1, V, P2` and, in a reachable state, is in the scene; afterwards `selectedPoints` is
empty and the mode is still `'angle'`.  When the host has `acos 0 = π / 2` and the two
arms are perpendicular, the value is 90. -/
theorem angle_completion (H : Host R) (s : State R) (V P1 P2 : Vec3 R)
    (hm : s.measurementMode = .angle) (hs : s.selectedPoints = [V, P1]) :
    labels (onModelClick H s (some P2)).scene
      = labels s.scene ++
          [⟨s.nextId + 2,
            H.acos (((P1.x - V.x) * (P2.x - V.x) + (P1.y - V.y) * (P2.y - V.y)
                  + (P1.z - V.z) * (P2.z - V.z))
                / (H.sqrt ((P1.x - V.x) ^ 2 + (P1.y - V.y) ^ 2 + (P1.z - V.z) ^ 2)
                    * H.sqrt ((P2.x - V.x) ^ 2 + (P2.y - V.y) ^ 2 + (P2.z - V.z) ^ 2)))
              * (180 / H.pi), .degrees, V⟩] ∧
    (onModelClick H s (some P2)).measurementText
      = some ⟨s.nextId + 2,
          H.acos (((P1.x - V.x) * (P2.x - V.x) + (P1.y - V.y) * (P2.y - V.y)
                + (P1.z - V.z) * (P2.z - V.z))
              / (H.sqrt ((P1.x - V.x) ^ 2 + (P1.y - V.y) ^ 2 + (P1.z - V.z) ^ 2)
                  * H.sqrt ((P2.x - V.x) ^ 2 + (P2.y - V.y) ^ 2 + (P2.z - V.z) ^ 2)))
            * (180 / H.pi), .degrees, V⟩ ∧
    (onModelClick H s (some P2)).measurementLine = some ⟨s.nextId + 1, [V, P1, V, P2]⟩ ∧
    (Reachable H s →
      SceneObj.line ⟨s.nextId + 1, [V, P1, V, P2]⟩ ∈ (onModelClick H s (some P2)).scene) ∧
    (onModelClick H s (some P2)).selectedPoints = [] ∧
    (onModelClick H s (some P2)).measurementMode = .angle ∧
    (H.acos 0 = H.pi / 2 → H.pi ≠ 0 →
      (P1.x - V.x) * (P2.x - V.x) + (P1.y - V.y) * (P2.y - V.y) + (P1.z - V.z) * (P2.z - V.z) = 0 →
      H.acos (((P1.x - V.x) * (P2.x - V.x) + (P1.y - V.y) * (P2.y - V.y)
            + (P1.z - V.z) * (P2.z - V.z))
          / (H.sqrt ((P1.x - V.x) ^ 2 + (P1.y - V.y) ^ 2 + (P1.z - V.z) ^ 2)
              * H.sqrt ((P2.x - V.x) ^ 2 + (P2.y - V.y) ^ 2 + (P2.z - V.z) ^ 2)))
        * (180 / H.pi) = 90) := by
  have hv : (P1.subVectors V).angleTo H (P2.subVectors V) * (180 / H.pi)
      = H.acos (((P1.x - V.x) * (P2.x - V.x) + (P1.y - V.y) * (P2.y - V.y)
            + (P1.z - V.z) * (P2.z - V.z))
          / (H.sqrt ((P1.x - V.x) ^ 2 + (P1.y - V.y) ^ 2 + (P1.z - V.z) ^ 2)
              * H.sqrt ((P2.x - V.x) ^ 2 + (P2.y - V.y) ^ 2 + (P2.z - V.z) ^ 2)))
        * (180 / H.pi) := by
    simp only [Vec3.angleTo, Vec3.lengthSq, Vec3.dot, Vec3.subVectors, sq]
  have hlast : H.acos 0 = H.pi / 2 → H.pi ≠ 0 →
      (P1.x - V.x) * (P2.x - V.x) + (P1.y - V.y) * (P2.y - V.y) + (P1.z - V.z) * (P2.z - V.z) = 0 →
      H.acos (((P1.x - V.x) * (P2.x - V.x) + (P1.y - V.y) * (P2.y - V.y)
            + (P1.z - V.z) * (P2.z - V.z))
          / (H.sqrt ((P1.x - V.x) ^ 2 + (P1.y - V.y) ^ 2 + (P1.z - V.z) ^ 2)
              * H.sqrt ((P2.x - V.x) ^ 2 + (P2.y - V.y) ^ 2 + (P2.z - V.z) ^ 2)))
        * (180 / H.pi) = 90 := by
    intro hacos hpi hdot
    rw [hdot, zero_div, hacos]
    field_simp
    ring
  have hline : Reachable H s →
      SceneObj.line ⟨s.nextId + 1, [V, P1, V, P2]⟩ ∈ (onModelClick H s (some P2)).scene := by
    intro hr
    have hid := hr.lineIdsOK.1
    simp only [onModelClick, hm, showAngle, createPointMarker, hs, dropDynamicLine]
    simp only [List.cons_append, List.nil_append, List.length_cons, List.length_nil, nth,
      List.getD_cons_zero, List.getD_cons_succ, reduceCtorEq, if_false, Nat.reduceAdd, if_true]
    cases hd : s.dynamicLine with
    | none => simp
    | some d =>
      have hlt := hid d hd
      have hne : (SceneObj.line ⟨s.nextId + 1, [V, P1, V, P2]⟩ : SceneObj R) ≠ SceneObj.line d := by
        intro he
        injection he with he
        rw [← he] at hlt
        simp at hlt
      simp only [List.mem_erase_of_ne hne]
      simp
  refine ⟨?_, ?_, ?_, hline, ?_, ?_, hlast⟩
  all_goals
    simp only [onModelClick, hm, showAngle, createPointMarker, hs, dropDynamicLine]
    simp only [List.cons_append, List.nil_append, List.length_cons, List.length_nil, nth,
      List.getD_cons_zero, List.getD_cons_succ, hv, reduceCtorEq, if_false, Nat.reduceAdd,
      if_true]
    cases hd : s.dynamicLine
    all_goals first
      | rfl
      | (simp only [labels_erase_line, labels_append, List.append_assoc]; simp [labels])

/-- C7, witness: `V = (0,0,0)`, `P1 = (1,0,0)`, `P2 = (0,0,1)` give 90, and so do
`V = (1,2,3)`, `P1 = (2,2,3)`, `P2 = (1,2,4)`; for `V = (1,2,3)`, `P1 = (4,2,3)`,
`P2 = (4,2,7)` the normalised inner product is 3/5, where the host of the concrete runs
gives 19746/355, and the line `V, P1, V, P2` is in the scene. -/
theorem angle_completion_witness :
    labels (onModelClick ratHost
        (run ratHost (initialState ℚ)
          [.setAngle, .click (some ⟨0, 0, 0⟩), .click (some ⟨1, 0, 0⟩)])
        (some ⟨0, 0, 1⟩)).scene = [⟨7, 90, .degrees, ⟨0, 0, 0⟩⟩] ∧
    labels (onModelClick ratHost
        (run ratHost (initialState ℚ)
          [.setAngle, .click (some ⟨1, 2, 3⟩), .click (some ⟨2, 2, 3⟩)])
        (some ⟨1, 2, 4⟩)).scene = [⟨7, 90, .degrees, ⟨1, 2, 3⟩⟩] ∧
    labels (onModelClick ratHost
        (run ratHost (initialState ℚ)
          [.setAngle, .click (some ⟨1, 2, 3⟩), .click (some ⟨4, 2, 3⟩)])
        (some ⟨4, 2, 7⟩)).scene = [⟨7, 19746 / 355, .degrees, ⟨1, 2, 3⟩⟩] ∧
    (onModelClick ratHost
        (run ratHost (initialState ℚ)
          [.setAngle, .click (some ⟨1, 2, 3⟩), .click (some ⟨4, 2, 3⟩)])
        (some ⟨4, 2, 7⟩)).measurementLine
      = some ⟨6, [⟨1, 2, 3⟩, ⟨4, 2, 3⟩, ⟨1, 2, 3⟩, ⟨4, 2, 7⟩]⟩ ∧
    SceneObj.line ⟨6, [⟨1, 2, 3⟩, ⟨4, 2, 3⟩, ⟨1, 2, 3⟩, ⟨4, 2, 7⟩]⟩ ∈
      (onModelClick ratHost
        (run ratHost (initialState ℚ)
          [.setAngle, .click (some ⟨1, 2, 3⟩), .click (some ⟨4, 2, 3⟩)])
        (some ⟨4, 2, 7⟩)).scene ∧
    (onModelClick ratHost
        (run ratHost (initialState ℚ)
          [.setAngle, .click (some ⟨1, 2, 3⟩), .click (some ⟨4, 2, 3⟩)])
        (some ⟨4, 2, 7⟩)).selectedPoints = [] ∧
    (onModelClick ratHost
        (run ratHost (initialState ℚ)
          [.setAngle, .click (some ⟨1, 2, 3⟩), .click (some ⟨4, 2, 3⟩)])
        (some ⟨4, 2, 7⟩)).measurementText = some ⟨7, 19746 / 355, .degrees, ⟨1, 2, 3⟩⟩ :=
  ⟨(angle_completion ratHost _ ⟨0, 0, 0⟩ ⟨1, 0, 0⟩ ⟨0, 0, 1⟩ (by decide!) (by decide!)).1.trans
     (by decide!),
   (angle_completion ratHost _ ⟨1, 2, 3⟩ ⟨2, 2, 3⟩ ⟨1, 2, 4⟩ (by decide!) (by decide!)).1.trans
     (by decide!),
   (angle_completion ratHost _ ⟨1, 2, 3⟩ ⟨4, 2, 3⟩ ⟨4, 2, 7⟩ (by decide!) (by decide!)).1.trans
     (by decide!),
   (angle_completion ratHost _ ⟨1, 2, 3⟩ ⟨4, 2, 3⟩ ⟨4, 2, 7⟩ (by decide!)
     (by decide!)).2.2.1.trans (by decide!),
   by decide!,
   (angle_completion ratHost _ ⟨1, 2, 3⟩ ⟨4, 2, 3⟩ ⟨4, 2, 7⟩ (by decide!)
     (by decide!)).2.2.2.2.1,
   by decide!⟩

/-- C8. In every reachable state in area mode, a click that picks `p` closes the polygon
(empties `polygonPoints`, the closed outline through the committed vertices being added to
`polygonLines` and no marker placed) if and only if `polygonPoints` already holds at least
3 points and the Euclidean distance from `p` to the first of them, `p0`, is less than 0.5;
in every other case, the empty polygon included, `p` is appended to `polygonPoints` and a
marker is placed at `p`. -/
theorem area_click_closing_condition (H : Host R) (s : State R) (p : Vec3 R)
    (hr : Reachable H s) (hm : s.measurementMode = .area) :
    (∀ p0 rest, s.polygonPoints = p0 :: rest →
      ((onModelClick H s (some p)).polygonPoints = [] ↔
        3 ≤ s.polygonPoints.length ∧
          H.sqrt ((p.x - p0.x) ^ 2 + (p.y - p0.y) ^ 2 + (p.z - p0.z) ^ 2) < 1 / 2) ∧
      (3 ≤ s.polygonPoints.length ∧
          H.sqrt ((p.x - p0.x) ^ 2 + (p.y - p0.y) ^ 2 + (p.z - p0.z) ^ 2) < 1 / 2 →
        (onModelClick H s (some p)).polygonLines
            = s.polygonLines ++ [⟨s.nextId, p0 :: rest ++ [p0]⟩] ∧
        (onModelClick H s (some p)).pointMarkers = s.pointMarkers) ∧
      (¬ (3 ≤ s.polygonPoints.length ∧
          H.sqrt ((p.x - p0.x) ^ 2 + (p.y - p0.y) ^ 2 + (p.z - p0.z) ^ 2) < 1 / 2) →
        (onModelClick H s (some p)).polygonPoints = p0 :: rest ++ [p] ∧
        (onModelClick H s (some p)).pointMarkers = s.pointMarkers ++ [⟨s.nextId, p⟩] ∧
        SceneObj.marker ⟨s.nextId, p⟩ ∈ (onModelClick H s (some p)).scene)) ∧
    (s.polygonPoints = [] →
      (onModelClick H s (some p)).polygonPoints = [p] ∧
      (onModelClick H s (some p)).pointMarkers = s.pointMarkers ++ [⟨s.nextId, p⟩] ∧
      SceneObj.marker ⟨s.nextId, p⟩ ∈ (onModelClick H s (some p)).scene) := by
  constructor
  · intro p0 rest hp
    have hd : p.distanceTo H (nth s.polygonPoints 0)
        = H.sqrt ((p.x - p0.x) ^ 2 + (p.y - p0.y) ^ 2 + (p.z - p0.z) ^ 2) := by
      have hsq : p.distanceToSquared p0
          = (p.x - p0.x) ^ 2 + (p.y - p0.y) ^ 2 + (p.z - p0.z) ^ 2 := by
        simp only [Vec3.distanceToSquared, Vec3.lengthSq, Vec3.dot, Vec3.subVectors]; ring
      rw [hp, Vec3.distanceTo, nth, List.getD_cons_zero, hsq]
    have hiff : closesPolygon H s p ↔
        3 ≤ s.polygonPoints.length ∧
          H.sqrt ((p.x - p0.x) ^ 2 + (p.y - p0.y) ^ 2 + (p.z - p0.z) ^ 2) < 1 / 2 := by
      rw [closesPolygon_iff H hr.inv p, hd]
    refine ⟨?_, ?_, ?_⟩
    · rw [← hiff]
      constructor
      · intro hnil
        by_contra hc
        rw [onModelClick_area_add H hm hc, (addPolygonPoint_fields s p).1] at hnil
        simp at hnil
      · intro hc
        rw [onModelClick_area_close H hm hc]
        rfl
    · intro hc
      rw [onModelClick_area_close H hm (hiff.2 hc)]
      refine ⟨?_, rfl⟩
      simp only [closePolygon, hp, nth, List.getD_cons_zero]
    · intro hc
      rw [onModelClick_area_add H hm (fun h => hc (hiff.1 h)), ← hp]
      exact addPolygonPoint_fields s p
  · intro hp
    have hc : ¬ closesPolygon H s p := by
      intro h
      have := h.1
      rw [hp] at this
      simp at this
    rw [onModelClick_area_add H hm hc]
    have := addPolygonPoint_fields s p
    rw [hp] at this
    exact this

/-- C8, witness: with the vertices (3,0,4), (6,0,4), (6,0,8) committed, a click at
distance 1/4 from the first vertex closes the polygon and a click at the origin, at
distance 5 from the first vertex, is appended; with only the first two vertices committed
the click at distance 1/4 is appended.  The closing click places no marker, the appended
one does. -/
theorem area_click_closing_condition_witness :
    (run ratHost (initialState ℚ)
      [.setArea, .click (some ⟨3, 0, 4⟩), .click (some ⟨6, 0, 4⟩),
       .click (some ⟨6, 0, 8⟩)]).polygonPoints = [⟨3, 0, 4⟩, ⟨6, 0, 4⟩, ⟨6, 0, 8⟩] ∧
    (onModelClick ratHost (run ratHost (initialState ℚ)
      [.setArea, .click (some ⟨3, 0, 4⟩), .click (some ⟨6, 0, 4⟩), .click (some ⟨6, 0, 8⟩)])
      (some ⟨3, 0, 17 / 4⟩)).polygonPoints = [] ∧
    (onModelClick ratHost (run ratHost (initialState ℚ)
      [.setArea, .click (some ⟨3, 0, 4⟩), .click (some ⟨6, 0, 4⟩), .click (some ⟨6, 0, 8⟩)])
      (some ⟨0, 0, 0⟩)).polygonPoints = [⟨3, 0, 4⟩, ⟨6, 0, 4⟩, ⟨6, 0, 8⟩, ⟨0, 0, 0⟩] ∧
    (onModelClick ratHost (run ratHost (initialState ℚ)
      [.setArea, .click (some ⟨3, 0, 4⟩), .click (some ⟨6, 0, 4⟩)])
      (some ⟨3, 0, 17 / 4⟩)).polygonPoints = [⟨3, 0, 4⟩, ⟨6, 0, 4⟩, ⟨3, 0, 17 / 4⟩] ∧
    (onModelClick ratHost (run ratHost (initialState ℚ)
      [.setArea, .click (some ⟨3, 0, 4⟩), .click (some ⟨6, 0, 4⟩), .click (some ⟨6, 0, 8⟩)])
      (some ⟨3, 0, 17 / 4⟩)).pointMarkers.length = 3 ∧
    (onModelClick ratHost (run ratHost (initialState ℚ)
      [.setArea, .click (some ⟨3, 0, 4⟩), .click (some ⟨6, 0, 4⟩), .click (some ⟨6, 0, 8⟩)])
      (some ⟨0, 0, 0⟩)).pointMarkers.length = 4 :=
  ⟨by decide!,
   ((area_click_closing_condition ratHost _ ⟨3, 0, 17 / 4⟩ ⟨_, rfl⟩ (by decide!)).1
      ⟨3, 0, 4⟩ [⟨6, 0, 4⟩, ⟨6, 0, 8⟩] (by decide!)).1.2 (by decide!),
   (((area_click_closing_condition ratHost _ ⟨0, 0, 0⟩ ⟨_, rfl⟩ (by decide!)).1
      ⟨3, 0, 4⟩ [⟨6, 0, 4⟩, ⟨6, 0, 8⟩] (by decide!)).2.2 (by decide!)).1,
   (((area_click_closing_condition ratHost _ ⟨3, 0, 17 / 4⟩ ⟨_, rfl⟩ (by decide!)).1
      ⟨3, 0, 4⟩ [⟨6, 0, 4⟩] (by decide!)).2.2 (by decide!)).1,
   by decide!, by decide!⟩

/-- C9. When a click closes the polygon in area mode (reachable state), exactly one label
is added to the scene, its value is `calculatePolygonArea(polygonPoints) * 10000`, no marker
is added and the outline runs through the committed vertices only; afterwards
`polygonPoints` is empty, `firstPointMarker` is null, the live line is no longer in the
scene and the mode is still `'area'`. -/
theorem area_completion (H : Host R) (s : State R) (p : Vec3 R)
    (hr : Reachable H s) (hm : s.measurementMode = .area)
    (hc : 3 ≤ s.polygonPoints.length ∧ p.distanceTo H (nth s.polygonPoints 0) < 1 / 2) :
    labels (onModelClick H s (some p)).scene
      = labels s.scene ++
          [⟨s.nextId + 1, calculatePolygonArea s.polygonPoints * 10000, .cm2,
            centroidPoint s.polygonPoints⟩] ∧
    (onModelClick H s (some p)).measurementText
      = some ⟨s.nextId + 1, calculatePolygonArea s.polygonPoints * 10000, .cm2,
          centroidPoint s.polygonPoints⟩ ∧
    (onModelClick H s (some p)).pointMarkers = s.pointMarkers ∧
    markers (onModelClick H s (some p)).scene = markers s.scene ∧
    (onModelClick H s (some p)).polygonLines
      = s.polygonLines ++ [⟨s.nextId, s.polygonPoints ++ [nth s.polygonPoints 0]⟩] ∧
    (onModelClick H s (some p)).polygonPoints = [] ∧
    (onModelClick H s (some p)).firstPointMarker = none ∧
    (∀ d, s.dynamicLine = some d → SceneObj.line d ∉ (onModelClick H s (some p)).scene) ∧
    (onModelClick H s (some p)).measurementMode = .area := by
  have hinv := hr.inv
  rw [onModelClick_area_close H hm ((closesPolygon_iff H hinv p).2 hc)]
  refine ⟨?_, rfl, rfl, ?_, rfl, rfl, rfl, ?_, hm⟩
  · simp only [closePolygon, labels_removeIf_line, labels_append]
    simp [labels]
  · simp only [closePolygon, markers_removeIf_line, markers_append]
    simp [markers]
  · intro d hd hmem
    have hok : SceneOK ((s.scene ++ [SceneObj.line
        ⟨s.nextId, s.polygonPoints ++ [nth s.polygonPoints 0]⟩]) ++
        [SceneObj.sprite ⟨s.nextId + 1, calculatePolygonArea s.polygonPoints * 10000, .cm2,
          centroidPoint s.polygonPoints⟩]) (s.nextId + 1 + 1) := by
      refine SceneOK.push (SceneOK.push hinv.sceneOK ?_) ?_ <;> rfl
    simp only [closePolygon, hd, Option.map_some'] at hmem
    exact ((mem_removeIf_iff hok.1 _ _).1 hmem).2 rfl

/-- C9, witness: the vertices (0,0,0), (2,0,0), (2,0,2), (0,0,2) and a fifth click at
distance 1/4 from the first report 40000. -/
theorem area_completion_witness :
    Reachable ratHost (run ratHost (initialState ℚ)
      [.setArea, .click (some ⟨0, 0, 0⟩), .click (some ⟨2, 0, 0⟩), .click (some ⟨2, 0, 2⟩),
       .click (some ⟨0, 0, 2⟩)]) ∧
    labels (onModelClick ratHost (run ratHost (initialState ℚ)
      [.setArea, .click (some ⟨0, 0, 0⟩), .click (some ⟨2, 0, 0⟩), .click (some ⟨2, 0, 2⟩),
       .click (some ⟨0, 0, 2⟩)]) (some ⟨1 / 4, 0, 0⟩)).scene
      = [⟨11, 40000, .cm2, ⟨1, 0, 1⟩⟩] ∧
    (onModelClick ratHost (run ratHost (initialState ℚ)
      [.setArea, .click (some ⟨0, 0, 0⟩), .click (some ⟨2, 0, 0⟩), .click (some ⟨2, 0, 2⟩),
       .click (some ⟨0, 0, 2⟩)]) (some ⟨1 / 4, 0, 0⟩)).polygonPoints = [] :=
  ⟨⟨_, rfl⟩,
   (area_completion ratHost _ ⟨1 / 4, 0, 0⟩ ⟨_, rfl⟩ (by decide!) (by decide!)).1.trans
     (by decide!),
   (area_completion ratHost _ ⟨1 / 4, 0, 0⟩ ⟨_, rfl⟩ (by decide!) (by decide!)).2.2.2.2.2.1⟩

/-- C10. For every list of points, `calculatePolygonArea` returns half the absolute value
of the sum over `i` of `x_i * z_j - x_j * z_i` with `j = (i + 1) mod n`; the result is
non-negative and does not depend on any `y` coordinate. -/
theorem calculatePolygonArea_shoelace (points : List (Vec3 R)) :
    calculatePolygonArea points
      = |∑ i : Fin points.length,
          ((points.get i).x * (points.get ⟨(i.val + 1) % points.length, Nat.mod_lt _ i.pos⟩).z
            - (points.get ⟨(i.val + 1) % points.length, Nat.mod_lt _ i.pos⟩).x
                * (points.get i).z)| / 2 ∧
    0 ≤ calculatePolygonArea points ∧
    ∀ f : Vec3 R → R,
      calculatePolygonArea (points.map fun q => ⟨q.x, f q, q.z⟩) = calculatePolygonArea points := by
  refine ⟨?_, ?_, ?_⟩
  · rw [calculatePolygonArea, foldl_add_eq_sum, Finset.sum_range]
    simp only [crossTerm_eq_get]
  · exact div_nonneg (abs_nonneg _) (by norm_num)
  · intro f
    simp only [calculatePolygonArea, List.length_map, crossTerm_map_y]

/-- C11, counterexample. For the rectangle with `x0 = z0 = 0.1`, `x1 = 0.4`, `z1 = 0.3`
(the binary64 numbers nearest to these decimals), `calculatePolygonArea` in binary64
returns 1080863910568919 / 2^54, which is neither the binary64 product
`(x1 - x0) * (z1 - z0)` nor the exact one, and the centroid of the closing branch is
`(9007199254740991 / 2^55, 0, 7205759403792793 / 2^55)`, which is neither the binary64
`((x0 + x1) / 2, (z0 + z1) / 2)` nor the exact one. -/
theorem rectangle_area_and_centroid_rounded :
    round64 (1 / 10) < round64 (4 / 10) ∧ round64 (1 / 10) < round64 (3 / 10) ∧
    calculatePolygonArea64
        [⟨round64 (1 / 10), 0, round64 (1 / 10)⟩, ⟨round64 (4 / 10), 0, round64 (1 / 10)⟩,
          ⟨round64 (4 / 10), 0, round64 (3 / 10)⟩, ⟨round64 (1 / 10), 0, round64 (3 / 10)⟩]
      = 1080863910568919 / 2 ^ 54 ∧
    fmul (fsub (round64 (4 / 10)) (round64 (1 / 10))) (fsub (round64 (3 / 10)) (round64 (1 / 10)))
      = 8646911284551353 / 2 ^ 57 ∧
    (round64 (4 / 10) - round64 (1 / 10)) * (round64 (3 / 10) - round64 (1 / 10))
      ≠ 1080863910568919 / 2 ^ 54 ∧
    centroidPoint64
        [⟨round64 (1 / 10), 0, round64 (1 / 10)⟩, ⟨round64 (4 / 10), 0, round64 (1 / 10)⟩,
          ⟨round64 (4 / 10), 0, round64 (3 / 10)⟩, ⟨round64 (1 / 10), 0, round64 (3 / 10)⟩]
      = ⟨9007199254740991 / 2 ^ 55, 0, 7205759403792793 / 2 ^ 55⟩ ∧
    fdiv (fadd (round64 (1 / 10)) (round64 (4 / 10))) 2 = 1 / 4 ∧
    fdiv (fadd (round64 (1 / 10)) (round64 (3 / 10))) 2 = 3602879701896397 / 2 ^ 54 ∧
    (round64 (1 / 10) + round64 (4 / 10)) / 2 ≠ 9007199254740991 / 2 ^ 55 ∧
    (round64 (1 / 10) + round64 (3 / 10)) / 2 ≠ 7205759403792793 / 2 ^ 55 :=
  ⟨by decide!, by decide!, by decide!, by decide!, by decide!, by decide!, by decide!,
   by decide!, by decide!, by decide!⟩

/-- C11, amended. For every axis-aligned rectangle in the X–Z plane with corners
`(x0,y0,z0)`, `(x1,y1,z0)`, `(x1,y2,z1)`, `(x0,y3,z1)` listed in that order, `x0 < x1`,
`z0 < z1` and all eight coordinates integers of magnitude at most 2^16,
`calculatePolygonArea` in binary64 returns `(x1 - x0) * (z1 - z0)` and the centroid computed
on closing is `((x0 + x1) / 2, (y0 + y1 + y2 + y3) / 4, (z0 + z1) / 2)`. -/
theorem rectangle_area_and_centroid (x0 x1 z0 z1 y0 y1 y2 y3 : ℚ) (hx : x0 < x1) (hz : z0 < z1)
    (hint : ∀ c ∈ [x0, x1, z0, z1, y0, y1, y2, y3], IntBounded (2 ^ 16) c) :
    calculatePolygonArea64 [⟨x0, y0, z0⟩, ⟨x1, y1, z0⟩, ⟨x1, y2, z1⟩, ⟨x0, y3, z1⟩]
      = (x1 - x0) * (z1 - z0) ∧
    centroidPoint64 [⟨x0, y0, z0⟩, ⟨x1, y1, z0⟩, ⟨x1, y2, z1⟩, ⟨x0, y3, z1⟩]
      = ⟨(x0 + x1) / 2, (y0 + y1 + y2 + y3) / 4, (z0 + z1) / 2⟩ := by
  have hx0 := hint x0 (by simp)
  have hx1 := hint x1 (by simp)
  have hz0 := hint z0 (by simp)
  have hz1 := hint z1 (by simp)
  have hy0 := hint y0 (by simp)
  have hy1 := hint y1 (by simp)
  have hy2 := hint y2 (by simp)
  have hy3 := hint y3 (by simp)
  have h := rectangle64_intCast x0.num x1.num z0.num z1.num y0.num y1.num y2.num y3.num
    (by exact_mod_cast (by rwa [hx0.cast_num, hx1.cast_num] : (x0.num : ℚ) < x1.num))
    (by exact_mod_cast (by rwa [hz0.cast_num, hz1.cast_num] : (z0.num : ℚ) < z1.num))
    (by
      intro c hc
      simp only [List.mem_cons, List.mem_singleton, List.not_mem_nil, or_false] at hc
      rw [Int.abs_eq_natAbs]
      rcases hc with rfl | rfl | rfl | rfl | rfl | rfl | rfl | rfl <;>
        exact_mod_cast (by assumption : IntBounded (2 ^ 16) _).2)
  rw [hx0.cast_num, hx1.cast_num, hz0.cast_num, hz1.cast_num, hy0.cast_num, hy1.cast_num,
    hy2.cast_num, hy3.cast_num] at h
  exact h

/-- C11, witness: the unit square has area 1, reported as 10000, and centroid
(1/2, 0, 1/2); the rectangle with `x` from 2 to 7, `z` from -3 to 1 and `y` values
1, 2, 3, 6 has area 20 and centroid (9/2, 3, -1). -/
theorem rectangle_area_and_centroid_witness :
    calculatePolygonArea64 [⟨0, 0, 0⟩, ⟨1, 0, 0⟩, ⟨1, 0, 1⟩, ⟨0, 0, 1⟩] = 1 ∧
    fmul (calculatePolygonArea64 [⟨0, 0, 0⟩, ⟨1, 0, 0⟩, ⟨1, 0, 1⟩, ⟨0, 0, 1⟩]) 10000 = 10000 ∧
    centroidPoint64 [⟨0, 0, 0⟩, ⟨1, 0, 0⟩, ⟨1, 0, 1⟩, ⟨0, 0, 1⟩] = ⟨1 / 2, 0, 1 / 2⟩ ∧
    calculatePolygonArea64 [⟨2, 1, -3⟩, ⟨7, 2, -3⟩, ⟨7, 3, 1⟩, ⟨2, 6, 1⟩] = 20 ∧
    centroidPoint64 [⟨2, 1, -3⟩, ⟨7, 2, -3⟩, ⟨7, 3, 1⟩, ⟨2, 6, 1⟩] = ⟨9 / 2, 3, -1⟩ :=
  ⟨(rectangle_area_and_centroid 0 1 0 1 0 0 0 0 (by decide!) (by decide!) (by decide!)).1.trans
     (by decide!),
   by decide!,
   (rectangle_area_and_centroid 0 1 0 1 0 0 0 0 (by decide!) (by decide!) (by decide!)).2.trans
     (by decide!),
   (rectangle_area_and_centroid 2 7 (-3) 1 1 2 3 6 (by decide!) (by decide!)
     (by decide!)).1.trans (by decide!),
   (rectangle_area_and_centroid 2 7 (-3) 1 1 2 3 6 (by decide!) (by decide!)
     (by decide!)).2.trans (by decide!)⟩

/-- C12, counterexample. The points `(1 + 1001/2^30, 2 + 3004/2^30)`,
`(2 + 1002/2^30, 3 + 3010/2^30)`, `(3 + 1003/2^30, 4 + 3016/2^30)` of the X–Z plane are
collinear and are binary64 numbers, yet in binary64 `calculatePolygonArea` returns
3 / 2^52, the divisor `6 * signedArea` of the centroid divisions is 9 / 2^51, not zero,
and the centroid is a point off the line. -/
theorem collinear_points_with_nonzero_area :
    CollinearXZ [(⟨1 + 1001 / 2 ^ 30, 0, 2 + 3004 / 2 ^ 30⟩ : Vec3 ℚ),
      ⟨2 + 1002 / 2 ^ 30, 0, 3 + 3010 / 2 ^ 30⟩, ⟨3 + 1003 / 2 ^ 30, 0, 4 + 3016 / 2 ^ 30⟩] ∧
    (∀ p ∈ [(⟨1 + 1001 / 2 ^ 30, 0, 2 + 3004 / 2 ^ 30⟩ : Vec3 ℚ),
      ⟨2 + 1002 / 2 ^ 30, 0, 3 + 3010 / 2 ^ 30⟩, ⟨3 + 1003 / 2 ^ 30, 0, 4 + 3016 / 2 ^ 30⟩],
      round64 p.x = p.x ∧ round64 p.z = p.z) ∧
    calculatePolygonArea64 [⟨1 + 1001 / 2 ^ 30, 0, 2 + 3004 / 2 ^ 30⟩,
      ⟨2 + 1002 / 2 ^ 30, 0, 3 + 3010 / 2 ^ 30⟩, ⟨3 + 1003 / 2 ^ 30, 0, 4 + 3016 / 2 ^ 30⟩]
      = 3 / 2 ^ 52 ∧
    fmul 6 (fdiv (centroidSums64 [⟨1 + 1001 / 2 ^ 30, 0, 2 + 3004 / 2 ^ 30⟩,
      ⟨2 + 1002 / 2 ^ 30, 0, 3 + 3010 / 2 ^ 30⟩, ⟨3 + 1003 / 2 ^ 30, 0, 4 + 3016 / 2 ^ 30⟩]).1 2)
      = 9 / 2 ^ 51 ∧
    centroidPoint64 [⟨1 + 1001 / 2 ^ 30, 0, 2 + 3004 / 2 ^ 30⟩,
      ⟨2 + 1002 / 2 ^ 30, 0, 3 + 3010 / 2 ^ 30⟩, ⟨3 + 1003 / 2 ^ 30, 0, 4 + 3016 / 2 ^ 30⟩]
      = ⟨6004799503160661 / 2 ^ 52, 0, 2001599834386887 / 2 ^ 50⟩ :=
  ⟨by decide!, by decide!, by decide!, by decide!, by decide!⟩

/-- C12, amended. Degenerate polygons are not rejected: for every list of points whose X–Z
projections all coincide, and for every list of at most 2^11 points whose X–Z projections
are collinear and whose `x` and `z` coordinates are integers of magnitude at most 2^20,
`calculatePolygonArea` in binary64 returns 0 and the signed area of the closing branch is
0, so the divisor `6 * signedArea` of both centroid divisions is zero; and in a reachable
state in area mode holding at least 3 such points, a click within 0.5 of the first point
closes the polygon all the same: `polygonPoints` is emptied and one label is added. -/
theorem degenerate_polygon_not_rejected (points : List (Vec3 ℚ))
    (hdeg : (∀ p ∈ points, ∀ q ∈ points, p.x = q.x ∧ p.z = q.z) ∨
      (CollinearXZ points ∧ PointsBounded (2 ^ 20) points ∧ points.length ≤ 2 ^ 11)) :
    calculatePolygonArea64 points = 0 ∧
    fdiv (centroidSums64 points).1 2 = 0 ∧
    fmul 6 (fdiv (centroidSums64 points).1 2) = 0 ∧
    (∀ (H : Host ℚ) (s : State ℚ) (p p0 : Vec3 ℚ) (rest : List (Vec3 ℚ)), Reachable H s →
      s.measurementMode = .area → s.polygonPoints = points → points = p0 :: rest →
      3 ≤ points.length →
      H.sqrt ((p.x - p0.x) ^ 2 + (p.y - p0.y) ^ 2 + (p.z - p0.z) ^ 2) < 1 / 2 →
      (onModelClick H s (some p)).polygonPoints = [] ∧
      (labels (onModelClick H s (some p)).scene).length = (labels s.scene).length + 1) := by
  have hfold : (List.range points.length).foldl
      (fun area i => fadd area (crossTerm64 points i)) 0 = 0 := by
    rcases hdeg with hco | ⟨hcol, hint, hlen⟩
    · exact area_fold_of_coincident hco
    · have hb : points.length * (2 ^ 20 * 2 ^ 20 + 2 ^ 20 * 2 ^ 20) < 2 ^ 53 :=
        calc points.length * (2 ^ 20 * 2 ^ 20 + 2 ^ 20 * 2 ^ 20)
            ≤ 2 ^ 11 * (2 ^ 20 * 2 ^ 20 + 2 ^ 20 * 2 ^ 20) := Nat.mul_le_mul_right _ hlen
          _ < 2 ^ 53 := by norm_num
      rw [(area_fold_exact hint (List.range points.length) 0 0 (by simpa using intBounded_zero 0)
          (by simpa using hb)).1, foldl_add_eq_sum, sum_crossTerm_of_collinear hcol]
  have harea : calculatePolygonArea64 points = 0 := by
    rw [calculatePolygonArea64, hfold]; simp [fdiv, round64]
  have hsigned : fdiv (centroidSums64 points).1 2 = 0 := by
    rw [centroidSums64_fst, hfold]; simp [fdiv, round64]
  refine ⟨harea, hsigned, by rw [hsigned]; simp [fmul, round64], ?_⟩
  intro H s p p0 rest hr hm hp hpts h3 hd
  have hclose := (closesPolygon_iff_coords H hr.inv (hp.trans hpts) p).2 ⟨by rw [hp]; exact h3, hd⟩
  rw [onModelClick_area_close H hm hclose]
  refine ⟨rfl, ?_⟩
  simp only [closePolygon, labels_removeIf_line, labels_append]
  simp [labels]

/-- C12, witness: the collinear points (1,0,2), (3,0,5), (5,0,8) are committed by three
clicks, their area is 0 and the divisor of the centroid divisions is 0, and a fourth click
at distance 1/4 from the first point closes the polygon; three points with the same
non-integer `x` and `z` have area 0 as well. -/
theorem degenerate_polygon_not_rejected_witness :
    CollinearXZ [(⟨1, 0, 2⟩ : Vec3 ℚ), ⟨3, 0, 5⟩, ⟨5, 0, 8⟩] ∧
    (run ratHost (initialState ℚ)
      [.setArea, .click (some ⟨1, 0, 2⟩), .click (some ⟨3, 0, 5⟩),
       .click (some ⟨5, 0, 8⟩)]).polygonPoints = [⟨1, 0, 2⟩, ⟨3, 0, 5⟩, ⟨5, 0, 8⟩] ∧
    calculatePolygonArea64 [⟨1, 0, 2⟩, ⟨3, 0, 5⟩, ⟨5, 0, 8⟩] = 0 ∧
    fmul 6 (fdiv (centroidSums64 [⟨1, 0, 2⟩, ⟨3, 0, 5⟩, ⟨5, 0, 8⟩]).1 2) = 0 ∧
    (onModelClick ratHost (run ratHost (initialState ℚ)
      [.setArea, .click (some ⟨1, 0, 2⟩), .click (some ⟨3, 0, 5⟩),
       .click (some ⟨5, 0, 8⟩)]) (some ⟨1, 0, 9 / 4⟩)).polygonPoints = [] ∧
    calculatePolygonArea64 [⟨round64 (1 / 10), 1, round64 (7 / 10)⟩,
      ⟨round64 (1 / 10), 2, round64 (7 / 10)⟩, ⟨round64 (1 / 10), 3, round64 (7 / 10)⟩] = 0 :=
  ⟨by decide!, by decide!,
   (degenerate_polygon_not_rejected [⟨1, 0, 2⟩, ⟨3, 0, 5⟩, ⟨5, 0, 8⟩]
      (Or.inr ⟨by decide!, by decide!, by decide!⟩)).1,
   (degenerate_polygon_not_rejected [⟨1, 0, 2⟩, ⟨3, 0, 5⟩, ⟨5, 0, 8⟩]
      (Or.inr ⟨by decide!, by decide!, by decide!⟩)).2.2.1,
   ((degenerate_polygon_not_rejected [⟨1, 0, 2⟩, ⟨3, 0, 5⟩, ⟨5, 0, 8⟩]
      (Or.inr ⟨by decide!, by decide!, by decide!⟩)).2.2.2 ratHost _ ⟨1, 0, 9 / 4⟩ ⟨1, 0, 2⟩
      [⟨3, 0, 5⟩, ⟨5, 0, 8⟩] ⟨_, rfl⟩ (by decide!) (by decide!) rfl (by decide!)
      (by decide!)).1,
   (degenerate_polygon_not_rejected _ (Or.inl (by decide!))).1⟩

/-- C13. For every state, a click or a pointer move whose ray query returns no
intersection leaves the whole state unchanged, and so does any click or move while
`measurementMode` is `'none'`. -/
theorem no_pick_is_ignored (H : Host R) (s : State R) :
    onModelClick H s none = s ∧ onMouseMove H s none = s ∧
    (s.measurementMode = .none →
      ∀ pick, onModelClick H s pick = s ∧ onMouseMove H s pick = s) := by
  refine ⟨?_, ?_, ?_⟩
  · simp only [onModelClick]; split <;> rfl
  · simp only [onMouseMove]; split <;> rfl
  · intro h pick
    simp [onModelClick, onMouseMove, h]

/-- C13, witness: a click that hits the model after the switch to orbit mode. -/
theorem no_pick_is_ignored_witness :
    (run ratHost (initialState ℚ) [.setDistance, .click (some ⟨0, 0, 0⟩), .setOrbit]).measurementMode
      = .none ∧
    onModelClick ratHost
      (run ratHost (initialState ℚ) [.setDistance, .click (some ⟨0, 0, 0⟩), .setOrbit])
      (some ⟨1, 0, 0⟩)
      = run ratHost (initialState ℚ) [.setDistance, .click (some ⟨0, 0, 0⟩), .setOrbit] :=
  ⟨by decide!, ((no_pick_is_ignored ratHost _).2.2 (by decide!) (some ⟨1, 0, 0⟩)).1⟩

/-- C14. The distance computed for a distance measurement is symmetric in the two picked
points, and it is zero for coincident points when the host square root of 0 is 0; hence
the value reported by `showDistance` is the same whichever end was clicked first. -/
theorem distance_symmetric (H : Host R) (A B : Vec3 R) :
    A.distanceTo H B = B.distanceTo H A ∧
    (H.sqrt 0 = 0 → A.distanceTo H A = 0) ∧
    (∀ s : State R,
      (showDistance H { s with selectedPoints := [A, B] }).measurementText.map Label.value
        = (showDistance H { s with selectedPoints := [B, A] }).measurementText.map Label.value) := by
  have hsym : A.distanceTo H B = B.distanceTo H A := by
    have : A.distanceToSquared B = B.distanceToSquared A := by
      simp only [Vec3.distanceToSquared, Vec3.lengthSq, Vec3.dot, Vec3.subVectors]; ring
    rw [Vec3.distanceTo, Vec3.distanceTo, this]
  refine ⟨hsym, ?_, ?_⟩
  · intro h0
    have : A.distanceToSquared A = 0 := by
      simp only [Vec3.distanceToSquared, Vec3.lengthSq, Vec3.dot, Vec3.subVectors]; ring
    rw [Vec3.distanceTo, this, h0]
  · intro s
    simp [showDistance, nth, hsym]

/-- C14, witness: the host over the rationals has `sqrt 0 = 0`; the points (0,0,0) and
(3,4,0) are at distance 5 in both orders. -/
theorem distance_symmetric_witness :
    ratHost.sqrt 0 = 0 ∧ (⟨3, 4, 5⟩ : Vec3 ℚ).distanceTo ratHost ⟨3, 4, 5⟩ = 0 ∧
    (⟨0, 0, 0⟩ : Vec3 ℚ).distanceTo ratHost ⟨3, 4, 0⟩ = 5 ∧
    (⟨3, 4, 0⟩ : Vec3 ℚ).distanceTo ratHost ⟨0, 0, 0⟩ = 5 :=
  ⟨by decide!, (distance_symmetric ratHost ⟨3, 4, 5⟩ ⟨3, 4, 5⟩).2.1 (by decide!), by decide!,
   by decide!⟩

/-- C15. For each of `setDistanceMeasure`, `setAngleMeasure` and `setAreaMeasure` and every
reachable state `s` (in particular one in which that mode is already active), `f s` has an
empty accumulator and every object of its scene was already in the scene of `s`, and
`f (f s)` equals `f s` in every variable and in the scene; only the flag of the measure
menu, which each call toggles, differs. -/
theorem measure_setters_idempotent (H : Host R) (s : State R) (hr : Reachable H s) :
    ((setDistanceMeasure s).selectedPoints = [] ∧
      (∀ x ∈ (setDistanceMeasure s).scene, x ∈ s.scene) ∧
      setDistanceMeasure (setDistanceMeasure s)
        = { setDistanceMeasure s with menuShown := !(setDistanceMeasure s).menuShown }) ∧
    ((setAngleMeasure s).selectedPoints = [] ∧
      (∀ x ∈ (setAngleMeasure s).scene, x ∈ s.scene) ∧
      setAngleMeasure (setAngleMeasure s)
        = { setAngleMeasure s with menuShown := !(setAngleMeasure s).menuShown }) ∧
    ((setAreaMeasure s).polygonPoints = [] ∧
      (∀ x ∈ (setAreaMeasure s).scene, x ∈ s.scene) ∧
      setAreaMeasure (setAreaMeasure s)
        = { setAreaMeasure s with menuShown := !(setAreaMeasure s).menuShown }) := by
  have hn := hr.inv.sceneOK.1
  refine ⟨⟨rfl, ?_, ?_⟩, ⟨rfl, ?_, ?_⟩, ⟨rfl, ?_, ?_⟩⟩
  · intro x hx
    have hx' : x ∈ (clearMeasurement _).scene := hx
    have hx'' := clearMeasurement_scene_subset hx'
    exact hx''
  · have e := clearMeasurement_scene_fixed s (setDistanceMeasure s) hn rfl rfl rfl rfl rfl rfl
    have : setDistanceMeasure (setDistanceMeasure s)
        = { setDistanceMeasure s with
            scene := (clearMeasurement (setDistanceMeasure s)).scene
            menuShown := !(setDistanceMeasure s).menuShown } := rfl
    rw [this, e]
  · intro x hx
    have hx' : x ∈ (clearMeasurement _).scene := hx
    have hx'' := clearMeasurement_scene_subset hx'
    exact hx''
  · have e := clearMeasurement_scene_fixed s (setAngleMeasure s) hn rfl rfl rfl rfl rfl rfl
    have : setAngleMeasure (setAngleMeasure s)
        = { setAngleMeasure s with
            scene := (clearMeasurement (setAngleMeasure s)).scene
            menuShown := !(setAngleMeasure s).menuShown } := rfl
    rw [this, e]
  · intro x hx
    have hx' : x ∈ (clearMeasurement _).scene := hx
    have hx'' := clearMeasurement_scene_subset hx'
    exact hx''
  · have e := clearMeasurement_scene_fixed { s with polygonLines := [] } (setAreaMeasure s) hn
      rfl rfl rfl rfl rfl rfl
    have : setAreaMeasure (setAreaMeasure s)
        = { setAreaMeasure s with
            scene := (clearMeasurement (setAreaMeasure s)).scene
            menuShown := !(setAreaMeasure s).menuShown } := rfl
    rw [this, e]

/-- C15, witness: `setDistanceMeasure` called once and twice in the middle of a distance
measurement leaves the same scene. -/
theorem measure_setters_idempotent_witness :
    Reachable ratHost (run ratHost (initialState ℚ)
      [.setDistance, .click (some ⟨0, 0, 0⟩), .move (some ⟨1, 0, 0⟩)]) ∧
    (setDistanceMeasure (run ratHost (initialState ℚ)
      [.setDistance, .click (some ⟨0, 0, 0⟩), .move (some ⟨1, 0, 0⟩)])).scene
      = [.light 0, .light 1, .model 2] ∧
    (setDistanceMeasure (setDistanceMeasure (run ratHost (initialState ℚ)
      [.setDistance, .click (some ⟨0, 0, 0⟩), .move (some ⟨1, 0, 0⟩)]))).scene
      = [.light 0, .light 1, .model 2] :=
  ⟨⟨_, rfl⟩, by decide!,
   (congrArg State.scene (measure_setters_idempotent ratHost _ ⟨_, rfl⟩).1.2.2).trans
     (by decide!)⟩

/-- C16. In every reachable state, `selectedPoints` holds at most 1 point in distance mode
and at most 2 in angle mode; the list that a click builds inside the handler before the
completion test therefore holds at most 2 points in distance mode and at most 3 in angle
mode. -/
theorem accumulator_capacity (H : Host R) (s : State R) (hr : Reachable H s) :
    (s.measurementMode = .distance →
      s.selectedPoints.length ≤ 1 ∧ ∀ p : Vec3 R, (s.selectedPoints ++ [p]).length ≤ 2) ∧
    (s.measurementMode = .angle →
      s.selectedPoints.length ≤ 2 ∧ ∀ p : Vec3 R, (s.selectedPoints ++ [p]).length ≤ 3) := by
  obtain ⟨events, rfl⟩ := hr
  have h := capacity_run H events (s := initialState R) (by simp [initialState])
  refine ⟨fun hm => ⟨h.1 hm, fun p => ?_⟩, fun hm => ⟨h.2 hm, fun p => ?_⟩⟩
  · have := h.1 hm
    simp only [List.length_append, List.length_singleton]; omega
  · have := h.2 hm
    simp only [List.length_append, List.length_singleton]; omega

/-- C16, witness: angle mode with two committed points. -/
theorem accumulator_capacity_witness :
    Reachable ratHost (run ratHost (initialState ℚ)
      [.setAngle, .click (some ⟨0, 0, 0⟩), .click (some ⟨1, 0, 0⟩)]) ∧
    (run ratHost (initialState ℚ)
      [.setAngle, .click (some ⟨0, 0, 0⟩), .click (some ⟨1, 0, 0⟩)]).selectedPoints.length = 2 ∧
    (run ratHost (initialState ℚ)
      [.setAngle, .click (some ⟨0, 0, 0⟩), .click (some ⟨1, 0, 0⟩)]).selectedPoints.length ≤ 2 :=
  ⟨⟨_, rfl⟩, by decide!,
   ((accumulator_capacity ratHost _ ⟨_, rfl⟩).2 (by decide!)).1⟩

/-- C17. For every state and every pointer move (hit or miss), `onMouseMove` leaves
`measurementMode`, `currentMode`, `selectedPoints`, `polygonPoints`, `firstPointMarker`,
`pointMarkers`, `polygonLines`, `measurementLine` and `measurementText` unchanged; in the
scene, the objects that are not lines are the same before and after, a line other than
the old `dynamicLine` stays, and a line that appears is the new `dynamicLine`. -/
theorem onMouseMove_frame (H : Host R) (s : State R) (pick : Option (Vec3 R)) :
    (onMouseMove H s pick).measurementMode = s.measurementMode ∧
    (onMouseMove H s pick).currentMode = s.currentMode ∧
    (onMouseMove H s pick).selectedPoints = s.selectedPoints ∧
    (onMouseMove H s pick).polygonPoints = s.polygonPoints ∧
    (onMouseMove H s pick).firstPointMarker = s.firstPointMarker ∧
    (onMouseMove H s pick).pointMarkers = s.pointMarkers ∧
    (onMouseMove H s pick).polygonLines = s.polygonLines ∧
    (onMouseMove H s pick).measurementLine = s.measurementLine ∧
    (onMouseMove H s pick).measurementText = s.measurementText ∧
    (∀ x, (∀ l, x ≠ SceneObj.line l) → (x ∈ (onMouseMove H s pick).scene ↔ x ∈ s.scene)) ∧
    (∀ l, SceneObj.line l ∈ s.scene → s.dynamicLine ≠ some l →
      SceneObj.line l ∈ (onMouseMove H s pick).scene) ∧
    (∀ l, SceneObj.line l ∈ (onMouseMove H s pick).scene →
      SceneObj.line l ∈ s.scene ∨ (onMouseMove H s pick).dynamicLine = some l) := by
  obtain ⟨f1, f2, f3, f4, f5, f6, f7, f8, f9⟩ := onMouseMove_fields H s pick
  obtain ⟨hfw, hbw⟩ := onMouseMove_scene H s pick
  have notline : ∀ (d : Option (Line R)) (x : SceneObj R), (∀ l, x ≠ SceneObj.line l) →
      d.map SceneObj.line ≠ some x := by
    intro d x hx hd
    cases d with
    | none => simp at hd
    | some l => exact hx l (by simpa using hd.symm)
  refine ⟨f1, f2, f3, f4, f5, f6, f7, f8, f9, ?_, ?_, ?_⟩
  · intro x hx
    constructor
    · intro h
      rcases hbw x h with h | h
      · exact h
      · exact absurd h (notline _ x hx)
    · intro h
      exact hfw x h (notline _ x hx)
  · intro l hl hne
    refine hfw _ hl ?_
    intro h
    cases hd : s.dynamicLine with
    | none => rw [hd] at h; simp at h
    | some d => rw [hd] at h hne; exact hne (by simpa using h)
  · intro l hl
    rcases hbw _ hl with h | h
    · exact Or.inl h
    · right
      cases hd : (onMouseMove H s pick).dynamicLine with
      | none => rw [hd] at h; simp at h
      | some d => rw [hd] at h; simpa using h

/-- C18. In every reachable state `firstPointMarker` is non-null if and only if
`polygonPoints` is non-empty; so, when `polygonPoints` is non-empty, the `firstPointMarker`
test changes neither the closing condition of `onModelClick` nor the closing preview of
`updateAreaPolygon`. -/
theorem firstPointMarker_iff_polygonPoints (H : Host R) (s : State R) (hr : Reachable H s) :
    (s.firstPointMarker ≠ none ↔ s.polygonPoints ≠ []) ∧
    (s.polygonPoints ≠ [] → ∀ p : Vec3 R,
      (closesPolygon H s p ↔
        s.polygonPoints.length > 2 ∧ p.distanceTo H (nth s.polygonPoints 0) < 1 / 2) ∧
      ((s.firstPointMarker.isSome = true ∧ p.distanceTo H (nth s.polygonPoints 0) < 1 / 2) ↔
        p.distanceTo H (nth s.polygonPoints 0) < 1 / 2)) := by
  have hf := hr.inv.firstMarker
  refine ⟨?_, ?_⟩
  · rw [← hf]
    cases s.firstPointMarker <;> simp
  · intro hne p
    have hs := hf.2 hne
    simp [closesPolygon, hs]

/-- C18, witness: a polygon vertex left behind by a switch to distance mode. -/
theorem firstPointMarker_iff_polygonPoints_witness :
    Reachable ratHost (run ratHost (initialState ℚ)
      [.setArea, .click (some ⟨0, 0, 0⟩), .setDistance, .click (some ⟨1, 0, 0⟩)]) ∧
    (run ratHost (initialState ℚ)
      [.setArea, .click (some ⟨0, 0, 0⟩), .setDistance, .click (some ⟨1, 0, 0⟩)]).polygonPoints
      = [⟨0, 0, 0⟩] ∧
    (run ratHost (initialState ℚ)
      [.setArea, .click (some ⟨0, 0, 0⟩), .setDistance, .click (some ⟨1, 0, 0⟩)]).firstPointMarker
      ≠ none :=
  ⟨⟨_, rfl⟩, by decide!,
   (firstPointMarker_iff_polygonPoints ratHost _ ⟨_, rfl⟩).1.2 (by decide!)⟩

/-- C19, counterexample. In binary64, rotating the rectangle `(0.1, 0.1)`, `(0.4, 0.1)`,
`(0.4, 0.3)`, `(0.1, 0.3)` of the X–Z plane by three places changes the result of
`calculatePolygonArea` from 1080863910568919 / 2^54 to 8646911284551351 / 2^57, and
reversing the quadrilateral `(3.7, 8.2)`, `(6.7, 2.9)`, `(9.5, 2.6)`, `(0.9, 2.3)` changes
it too. -/
theorem calculatePolygonArea64_changes_under_rotation_and_reversal :
    calculatePolygonArea64
        ([⟨round64 (1 / 10), 0, round64 (1 / 10)⟩, ⟨round64 (4 / 10), 0, round64 (1 / 10)⟩,
          ⟨round64 (4 / 10), 0, round64 (3 / 10)⟩,
          ⟨round64 (1 / 10), 0, round64 (3 / 10)⟩].rotate 3)
      ≠ calculatePolygonArea64
        [⟨round64 (1 / 10), 0, round64 (1 / 10)⟩, ⟨round64 (4 / 10), 0, round64 (1 / 10)⟩,
          ⟨round64 (4 / 10), 0, round64 (3 / 10)⟩, ⟨round64 (1 / 10), 0, round64 (3 / 10)⟩] ∧
    calculatePolygonArea64
        [⟨round64 (1 / 10), 0, round64 (1 / 10)⟩, ⟨round64 (4 / 10), 0, round64 (1 / 10)⟩,
          ⟨round64 (4 / 10), 0, round64 (3 / 10)⟩, ⟨round64 (1 / 10), 0, round64 (3 / 10)⟩]
      = 1080863910568919 / 2 ^ 54 ∧
    calculatePolygonArea64
        ([⟨round64 (1 / 10), 0, round64 (1 / 10)⟩, ⟨round64 (4 / 10), 0, round64 (1 / 10)⟩,
          ⟨round64 (4 / 10), 0, round64 (3 / 10)⟩,
          ⟨round64 (1 / 10), 0, round64 (3 / 10)⟩].rotate 3)
      = 8646911284551351 / 2 ^ 57 ∧
    calculatePolygonArea64
        ([⟨round64 (37 / 10), 0, round64 (82 / 10)⟩, ⟨round64 (67 / 10), 0, round64 (29 / 10)⟩,
          ⟨round64 (95 / 10), 0, round64 (26 / 10)⟩,
          ⟨round64 (9 / 10), 0, round64 (23 / 10)⟩] : List (Vec3 ℚ)).reverse
      ≠ calculatePolygonArea64
        [⟨round64 (37 / 10), 0, round64 (82 / 10)⟩, ⟨round64 (67 / 10), 0, round64 (29 / 10)⟩,
          ⟨round64 (95 / 10), 0, round64 (26 / 10)⟩, ⟨round64 (9 / 10), 0, round64 (23 / 10)⟩] :=
  ⟨by decide!, by decide!, by decide!, by decide!⟩

/-- C19, amended. For every list of at most 2^11 points whose `x` and `z` coordinates are
integers of magnitude at most 2^20, the result of `calculatePolygonArea` in binary64 is
unchanged when the list is cyclically rotated and when it is reversed. -/
theorem calculatePolygonArea64_rotate_reverse (points : List (Vec3 ℚ))
    (hint : PointsBounded (2 ^ 20) points) (hlen : points.length ≤ 2 ^ 11) :
    (∀ k : ℕ, calculatePolygonArea64 (points.rotate k) = calculatePolygonArea64 points) ∧
    calculatePolygonArea64 points.reverse = calculatePolygonArea64 points := by
  have hb : ∀ n : ℕ, n ≤ 2 ^ 11 → n * (2 ^ 20 * 2 ^ 20 + 2 ^ 20 * 2 ^ 20) < 2 ^ 53 := by
    intro n hn
    calc n * (2 ^ 20 * 2 ^ 20 + 2 ^ 20 * 2 ^ 20)
        ≤ 2 ^ 11 * (2 ^ 20 * 2 ^ 20 + 2 ^ 20 * 2 ^ 20) := Nat.mul_le_mul_right _ hn
      _ < 2 ^ 53 := by norm_num
  have hexact := calculatePolygonArea_exact_rotate_reverse points
  constructor
  · intro k
    rw [calculatePolygonArea64_exact (pointsBounded_rotate hint k)
        (by rw [List.length_rotate]; exact hb _ hlen),
      calculatePolygonArea64_exact hint (hb _ hlen), hexact.1 k]
  · rw [calculatePolygonArea64_exact (pointsBounded_reverse hint)
        (by rw [List.length_reverse]; exact hb _ hlen),
      calculatePolygonArea64_exact hint (hb _ hlen), hexact.2]

/-- C19, witness: the quadrilateral (3,1), (10,2), (12,9), (-4,6) of the X–Z plane has
area 74, also when reversed and when rotated by three places. -/
theorem calculatePolygonArea64_rotate_reverse_witness :
    PointsBounded (2 ^ 20) [⟨3, 7, 1⟩, ⟨10, 0, 2⟩, ⟨12, 5, 9⟩, ⟨-4, 1, 6⟩] ∧
    calculatePolygonArea64 [⟨3, 7, 1⟩, ⟨10, 0, 2⟩, ⟨12, 5, 9⟩, ⟨-4, 1, 6⟩] = 74 ∧
    calculatePolygonArea64 ([⟨3, 7, 1⟩, ⟨10, 0, 2⟩, ⟨12, 5, 9⟩, ⟨-4, 1, 6⟩] : List (Vec3 ℚ)).reverse
      = 74 ∧
    calculatePolygonArea64 (([⟨3, 7, 1⟩, ⟨10, 0, 2⟩, ⟨12, 5, 9⟩, ⟨-4, 1, 6⟩] :
      List (Vec3 ℚ)).rotate 3) = 74 :=
  ⟨by decide!, by decide!,
   ((calculatePolygonArea64_rotate_reverse _ (by decide!) (by decide!)).2).trans (by decide!),
   ((calculatePolygonArea64_rotate_reverse _ (by decide!) (by decide!)).1 3).trans (by decide!)⟩

/-- C20. In every state reached from the initial state by any sequence of events, together
with the identifiers `live` of the live lines constructed on the way: an object of the
scene that is a live line is the line referenced by `dynamicLine`, the scene contains at
most one live line, and whenever an event replaces or clears `dynamicLine` the line it
referenced before is no longer in the scene. -/
theorem live_line_unique (H : Host R) (events : List (Event R)) (s : State R)
    (live : List Nat) (h : runLive H events = (s, live)) :
    (∀ o ∈ s.scene, o.id ∈ live → ∃ l, o = SceneObj.line l ∧ s.dynamicLine = some l) ∧
    (s.scene.filter fun o => decide (o.id ∈ live)).length ≤ 1 ∧
    (∀ (e : Event R) (d : Line R), s.dynamicLine = some d →
      (step H s e).dynamicLine ≠ some d → SceneObj.line d ∉ (step H s e).scene) := by
  have hinv : LiveInv s live := by
    have := @liveInv_foldl R _ H events (initialState R, []) liveInv_initial
    rw [show events.foldl (stepLive H) (initialState R, []) = (s, live) from h] at this
    exact this
  obtain ⟨hok, _, hdyn⟩ := hinv
  have h1 : ∀ o ∈ s.scene, o.id ∈ live → ∃ l, o = SceneObj.line l ∧ s.dynamicLine = some l := by
    intro o ho hid
    have := hdyn o ho hid
    cases hd : s.dynamicLine with
    | none => rw [hd] at this; simp at this
    | some d => rw [hd] at this; exact ⟨d, by simpa using this.symm, rfl⟩
  refine ⟨h1, ?_, ?_⟩
  · cases hd : s.dynamicLine with
    | none =>
      have : (s.scene.filter fun o => decide (o.id ∈ live)) = [] := by
        rw [List.filter_eq_nil_iff]
        intro o ho hid
        obtain ⟨l, _, hl⟩ := h1 o ho (by simpa using hid)
        rw [hd] at hl
        simp at hl
      rw [this]; simp
    | some d =>
      refine length_le_one_of_nodup_of_eq (hok.1.filter _) (SceneObj.line d) ?_
      intro o ho
      obtain ⟨ho1, ho2⟩ := List.mem_filter.1 ho
      obtain ⟨l, hl1, hl2⟩ := h1 o ho1 (by simpa using ho2)
      rw [hd] at hl2
      rw [hl1, Option.some.inj hl2]
  · intro e d hd hne hmem
    have := dynamicLine_kept H hok e _ hmem (by rw [hd]; rfl)
    cases hd' : (step H s e).dynamicLine with
    | none => rw [hd'] at this; simp at this
    | some d' =>
      rw [hd'] at this hne
      exact hne (by simpa using this)

/-- C20, witness: two pointer moves in the middle of a distance measurement build the live
lines 4 and 5; only line 5 is in the scene. -/
theorem live_line_unique_witness :
    (runLive ratHost
      [.setDistance, .click (some ⟨0, 0, 0⟩), .move (some ⟨1, 0, 0⟩),
       .move (some ⟨2, 0, 0⟩)]).2 = [4, 5] ∧
    (runLive ratHost
      [.setDistance, .click (some ⟨0, 0, 0⟩), .move (some ⟨1, 0, 0⟩),
       .move (some ⟨2, 0, 0⟩)]).1.scene
      = [.light 0, .light 1, .model 2, .marker ⟨3, ⟨0, 0, 0⟩⟩,
         .line ⟨5, [⟨0, 0, 0⟩, ⟨2, 0, 0⟩]⟩] ∧
    ((runLive ratHost
      [.setDistance, .click (some ⟨0, 0, 0⟩), .move (some ⟨1, 0, 0⟩),
       .move (some ⟨2, 0, 0⟩)]).1.scene.filter fun o => decide (o.id ∈ [4, 5])).length ≤ 1 :=
  ⟨by decide!, by decide!,
   (live_line_unique ratHost
      [.setDistance, .click (some ⟨0, 0, 0⟩), .move (some ⟨1, 0, 0⟩), .move (some ⟨2, 0, 0⟩)]
      _ [4, 5] (by decide!)).2.1⟩
end Claims

end ModelViewer
